import Mathlib

/-
  Shallow embedding of the revenue-leak synchronization-and-detection engine:
  the QuickBooks sync service (backend/services/quickbooks.service.js), the
  leak-detection service (LeakDetectionService), and the relevant Mongoose
  model hooks (Invoice pre-save, Leak pre-save).

  Modelling conventions:
  - JS numbers that hold money are modelled as rationals; timestamps are
    integers in milliseconds (Date.now() is passed in as a `now` parameter).
  - Mongoose stores are lists of records; `_id` is a Nat field `oid`,
    assigned from a per-collection counter on insert.
  - `findOneAndUpdate`/`findByIdAndUpdate` update the first matching record
    and, crucially, do not run the pre-save hooks; `create` runs them.
  - Network I/O (token exchange, ledger query) is passed in as an
    `Except String` value standing for the awaited response or the thrown
    error.
  - Free-text fields built by string interpolation (rootCause, description)
    are omitted; `recommendedAction` is kept since it is a plain branch.
  - `QBInvoice.TotalAmt` is modelled as always present: the source reads
    `parseFloat(qbInv.TotalAmt)`, which is float NaN when the field is
    absent, and NaN is outside this rational embedding.
-/

/-! ## Basic time helpers -/

/-- Milliseconds per day: 1000 * 60 * 60 * 24. -/
def msPerDay : ℤ := 86400000

/-- JS Math.floor(a / b) on integer inputs with b > 0: floor division. -/
def jsFloorDiv (a b : ℤ) : ℤ := a.fdiv b

/-- JS Math.ceil(a / b) on integer inputs with b > 0: ceiling division. -/
def jsCeilDiv (a b : ℤ) : ℤ := -((-a).fdiv b)

/-! ## Enumerations (string enums of the Mongoose schemas) -/

/-- Invoice.status enum; `partPaid` models the source enum string partial. -/
inductive InvStatus
  | draft | sent | viewed | partPaid | paid | overdue | cancelled
deriving DecidableEq, Repr

/-- Payment.paymentMethod enum. -/
inductive PayMethod
  | ach | wire | check | other
deriving DecidableEq, Repr

/-- Payment.status enum. -/
inductive PayStatus
  | pending | completed | failed | refunded
deriving DecidableEq, Repr

/-- Contract.status enum. -/
inductive ContractStatus
  | draft | active | expired | renewed | cancelled
deriving DecidableEq, Repr

/-- Contract.billingFrequency enum. -/
inductive BillingFrequency
  | monthly | quarterly | annually
deriving DecidableEq, Repr

/-- Leak.leakType enum. -/
inductive LeakType
  | missing_payment | under_billing | failed_renewal | uncollected_receivable
  | duplicate_credit | pricing_mismatch | contract_violation
deriving DecidableEq, Repr

/-- Leak.status enum. -/
inductive LeakStatus
  | detected | investigating | in_recovery | recovered | written_off
deriving DecidableEq, Repr

/-- Leak.priority enum. -/
inductive Priority
  | low | medium | high | critical
deriving DecidableEq, Repr

/-- Rank of a priority tier in the order low < medium < high < critical. -/
def Priority.rank : Priority → Nat
  | .low => 0
  | .medium => 1
  | .high => 2
  | .critical => 3

/-! ## Records -/

/-- One invoice line item (Invoice.lineItems entry). -/
structure LineItem where
  description : Option String
  quantity : Option ℚ
  unitPrice : Option ℚ
  amount : ℚ
deriving DecidableEq, Repr

/-- Invoice document (backend/models/Invoice.js). `oid` is the Mongo _id. -/
structure Invoice where
  oid : Nat
  company : Nat
  invoiceNumber : String
  customerId : Option String
  customerName : Option String
  amount : ℚ
  currency : String
  issueDate : ℤ
  dueDate : ℤ
  paidDate : Option ℤ
  status : InvStatus
  lineItems : List LineItem
  totalPaid : ℚ
  balance : ℚ
  sourceSystem : String
  quickbooksId : String
  reconciled : Bool
  notes : String
deriving DecidableEq, Repr

/-- Payment document (backend/models/Payment.js). `invoiceId` is the optional
reference to an Invoice `oid`. -/
structure Payment where
  oid : Nat
  company : Nat
  paymentId : String
  invoiceId : Option Nat
  customerId : Option String
  customerName : Option String
  amount : ℚ
  currency : String
  paymentDate : ℤ
  paymentMethod : PayMethod
  status : PayStatus
  reference : Option String
  sourceSystem : String
  quickbooksId : String
  reconciled : Bool
  notes : String
deriving DecidableEq, Repr

/-- Contract.pricing subdocument. -/
structure Pricing where
  baseFee : ℚ
  commissionPercentage : ℚ
deriving DecidableEq, Repr

/-- Contract document (backend/models/Contract.js). -/
structure Contract where
  oid : Nat
  company : Nat
  contractNumber : String
  clientCompanyName : String
  status : ContractStatus
  startDate : ℤ
  endDate : ℤ
  pricing : Pricing
  billingFrequency : BillingFrequency
deriving DecidableEq, Repr

/-- Leak.sourceReference subdocument. -/
structure SourceReference where
  invoiceId : Option String
  customerId : Option String
  transactionId : Option String
  contractId : Option String
deriving DecidableEq, Repr

/-- Leak document (backend/models/Leak.js). rootCause and description
(interpolated strings) are omitted. -/
structure Leak where
  oid : Nat
  company : Nat
  leakType : LeakType
  status : LeakStatus
  priority : Priority
  amount : ℚ
  currency : String
  confidence : ℚ
  sourceSystem : String
  sourceReference : SourceReference
  detectedAt : ℤ
  aging : ℤ
  recommendedAction : String
deriving DecidableEq, Repr

/-- Company.integrations.quickbooks credential block. -/
structure QBConfig where
  connected : Bool
  realmId : String
  accessToken : String
  refreshToken : String
  tokenExpiresAt : ℤ
  lastSync : Option ℤ
deriving DecidableEq, Repr

/-- Company document (tenant). Only the credential block matters here. -/
structure Company where
  oid : Nat
  qb : QBConfig
deriving DecidableEq, Repr

/-- The persistent state: one list per collection plus fresh-id counters. -/
structure DB where
  companies : List Company
  invoices : List Invoice
  nextInvoiceId : Nat
  payments : List Payment
  nextPaymentId : Nat
  contracts : List Contract
  leaks : List Leak
  nextLeakId : Nat
deriving DecidableEq, Repr

/-- A `{ success, count }` summary as returned by detectors and sync calls. -/
structure OpResult where
  success : Bool
  count : Nat
deriving DecidableEq, Repr

/-! ## Model hooks -/

/-- Invoice pre-save hook (Invoice.js lines 77-91): recompute balance, then
derive status; `now` models `new Date()`. Not run by findOneAndUpdate. -/
def invoiceSave (now : ℤ) (inv0 : Invoice) : Invoice :=
  let inv := { inv0 with balance := inv0.amount - inv0.totalPaid }
  if inv.balance ≤ 0 then
    { inv with status := .paid,
               paidDate := match inv.paidDate with
                           | some d => some d
                           | none => some now }
  else if inv.totalPaid > 0 ∧ inv.balance > 0 then
    { inv with status := .partPaid }
  else if now > inv.dueDate ∧ inv.balance > 0 then
    { inv with status := .overdue }
  else inv

/-- Leak pre-save hook (Leak.js lines 91-98): recompute aging as whole days
since detectedAt (a Date object is always truthy, so the guard always
holds). Runs on `Leak.create`, not on findByIdAndUpdate. -/
def leakSave (now : ℤ) (l : Leak) : Leak :=
  { l with aging := jsFloorDiv (now - l.detectedAt) msPerDay }

/-! ## Scoring module (LeakDetectionService helpers) -/

/-- calculatePriority(amount, daysOverdue): tiers checked from critical down. -/
def calculatePriority (amount : ℚ) (daysOverdue : ℤ) : Priority :=
  if amount > 50000 ∨ daysOverdue > 90 then .critical
  else if amount > 10000 ∨ daysOverdue > 60 then .high
  else if amount > 5000 ∨ daysOverdue > 30 then .medium
  else .low

/-- calculateConfidence(leakType, daysOverdue): the leakType argument is
accepted but unused by the source. -/
def calculateConfidence (leakType : String) (daysOverdue : ℤ) : ℚ :=
  if daysOverdue > 90 then 95
  else if daysOverdue > 60 then 90
  else if daysOverdue > 30 then 85
  else if daysOverdue > 15 then 80
  else 70

/-- calculateExpectedBilling(contract): months = ceil(duration / 30 days). -/
def calculateExpectedBilling (contract : Contract) : ℚ :=
  let monthsInContract := jsCeilDiv (contract.endDate - contract.startDate) (30 * msPerDay)
  match contract.billingFrequency with
  | .monthly => contract.pricing.baseFee * (monthsInContract : ℚ)
  | .quarterly => contract.pricing.baseFee * ((jsCeilDiv monthsInContract 3 : ℤ) : ℚ)
  | .annually => contract.pricing.baseFee

/-! ## Leak detection engine -/

/-- Status test of the missing-payment / aging-receivable candidate query:
status in (sent, viewed, partial, overdue). -/
def unpaidStatus : InvStatus → Bool
  | .sent => true
  | .viewed => true
  | .partPaid => true
  | .overdue => true
  | _ => false

/-- Terminal leak statuses: recovered and written_off. -/
def isTerminal : LeakStatus → Bool
  | .recovered => true
  | .written_off => true
  | _ => false

/-- The shared dedup guard query: Leak.findOne on company, leakType, a
sourceReference subfield and status not in (recovered, written_off). -/
def findOpenLeak (leaks : List Leak) (cid : Nat) (t : LeakType)
    (refMatch : SourceReference → Bool) : Option Leak :=
  leaks.find? fun l =>
    decide (l.company = cid) && decide (l.leakType = t) &&
    refMatch l.sourceReference && !(isTerminal l.status)

/-- Leak.findByIdAndUpdate(id, (aging, amount)): updates the matching
record in place, without running the pre-save hook. -/
def updateLeakById (leaks : List Leak) (i : Nat) (ag : ℤ) (am : ℚ) : List Leak :=
  leaks.map fun l => if l.oid = i then { l with aging := ag, amount := am } else l

/-- Loop body of detectMissingPayments: state is (leaks, nextLeakId, count). -/
def missingPaymentVisit (now : ℤ) (cid : Nat) (st : List Leak × Nat × Nat)
    (inv : Invoice) : List Leak × Nat × Nat :=
  let (leaks, nid, cnt) := st
  let daysOverdue := jsFloorDiv (now - inv.dueDate) msPerDay
  if daysOverdue > 0 then
    match findOpenLeak leaks cid .missing_payment
        (fun r => decide (r.invoiceId = some inv.invoiceNumber)) with
    | none =>
        let l := leakSave now {
          oid := nid, company := cid, leakType := .missing_payment,
          status := .detected,
          priority := calculatePriority inv.balance daysOverdue,
          amount := inv.balance, currency := inv.currency,
          confidence := calculateConfidence "missing_payment" daysOverdue,
          sourceSystem := inv.sourceSystem,
          sourceReference := { invoiceId := some inv.invoiceNumber,
                               customerId := inv.customerId,
                               transactionId := none, contractId := none },
          detectedAt := now, aging := daysOverdue,
          recommendedAction := if daysOverdue > 60 then
              "Escalate to collections or legal team"
            else
              "Send payment reminder and follow up with customer" }
        (leaks ++ [l], nid + 1, cnt + 1)
    | some existing => (updateLeakById leaks existing.oid daysOverdue inv.balance, nid, cnt)
  else st

/-- detectMissingPayments (LeakDetectionService lines 30-93). -/
def detectMissingPayments (now : ℤ) (cid : Nat) (db : DB) : DB × OpResult :=
  let candidates := db.invoices.filter fun i =>
    decide (i.company = cid) && unpaidStatus i.status && decide (i.balance > 0)
  let st := candidates.foldl (missingPaymentVisit now cid)
    (db.leaks, db.nextLeakId, 0)
  ({ db with leaks := st.1, nextLeakId := st.2.1 },
   { success := true, count := st.2.2 })

/-- Sum of Invoice.amount over the invoices of the contract period
(company match, issueDate in [startDate, endDate]). -/
def contractTotalBilled (cid : Nat) (invoices : List Invoice) (c : Contract) : ℚ :=
  (invoices.filter fun inv =>
      decide (inv.company = cid) && decide (c.startDate ≤ inv.issueDate) &&
      decide (inv.issueDate ≤ c.endDate)).foldl (fun s inv => s + inv.amount) 0

/-- Loop body of detectUnderBilling. -/
def underBillingVisit (now : ℤ) (cid : Nat) (invoices : List Invoice)
    (st : List Leak × Nat × Nat) (contract : Contract) : List Leak × Nat × Nat :=
  let (leaks, nid, cnt) := st
  let totalBilled := contractTotalBilled cid invoices contract
  let expectedAmount := calculateExpectedBilling contract
  let underBilledAmount := expectedAmount - totalBilled
  let underBilledPercent := underBilledAmount / expectedAmount * 100
  if underBilledPercent > 5 then
    match findOpenLeak leaks cid .under_billing
        (fun r => decide (r.contractId = some contract.contractNumber)) with
    | none =>
        let l := leakSave now {
          oid := nid, company := cid, leakType := .under_billing,
          status := .detected,
          priority := if underBilledAmount > 10000 then .high else .medium,
          amount := underBilledAmount, currency := "USD", confidence := 85,
          sourceSystem := "manual",
          sourceReference := { invoiceId := none, customerId := none,
                               transactionId := none,
                               contractId := some contract.contractNumber },
          detectedAt := now, aging := 0,
          recommendedAction := "Review contract terms and issue corrective invoice" }
        (leaks ++ [l], nid + 1, cnt + 1)
    | some _ => (leaks, nid, cnt)
  else (leaks, nid, cnt)

/-- detectUnderBilling (LeakDetectionService lines 98-160). -/
def detectUnderBilling (now : ℤ) (cid : Nat) (db : DB) : DB × OpResult :=
  let candidates := db.contracts.filter fun c =>
    decide (c.company = cid) && decide (c.status = .active)
  let st := candidates.foldl (underBillingVisit now cid db.invoices)
    (db.leaks, db.nextLeakId, 0)
  ({ db with leaks := st.1, nextLeakId := st.2.1 },
   { success := true, count := st.2.2 })

/-- Loop body of detectFailedRenewals. -/
def failedRenewalVisit (now : ℤ) (cid : Nat) (contracts : List Contract)
    (st : List Leak × Nat × Nat) (contract : Contract) : List Leak × Nat × Nat :=
  let (leaks, nid, cnt) := st
  match contracts.find? (fun c2 =>
      decide (c2.company = cid) &&
      decide (c2.clientCompanyName = contract.clientCompanyName) &&
      decide (contract.endDate ≤ c2.startDate)) with
  | some _ => (leaks, nid, cnt)
  | none =>
    match findOpenLeak leaks cid .failed_renewal
        (fun r => decide (r.contractId = some contract.contractNumber)) with
    | none =>
        let l := leakSave now {
          oid := nid, company := cid, leakType := .failed_renewal,
          status := .detected, priority := .high,
          amount := contract.pricing.baseFee, currency := "USD",
          confidence := 70, sourceSystem := "manual",
          sourceReference := { invoiceId := none, customerId := none,
                               transactionId := none,
                               contractId := some contract.contractNumber },
          detectedAt := now, aging := 0,
          recommendedAction := "Contact client immediately to discuss renewal terms" }
        (leaks ++ [l], nid + 1, cnt + 1)
    | some _ => (leaks, nid, cnt)

/-- detectFailedRenewals (LeakDetectionService lines 165-228). -/
def detectFailedRenewals (now : ℤ) (cid : Nat) (db : DB) : DB × OpResult :=
  let thirtyDaysAgo := now - 30 * msPerDay
  let candidates := db.contracts.filter fun c =>
    decide (c.company = cid) && decide (c.status = .active) &&
    decide (thirtyDaysAgo ≤ c.endDate) && decide (c.endDate ≤ now)
  let st := candidates.foldl (failedRenewalVisit now cid db.contracts)
    (db.leaks, db.nextLeakId, 0)
  ({ db with leaks := st.1, nextLeakId := st.2.1 },
   { success := true, count := st.2.2 })

/-- Loop body of detectAgingReceivables. -/
def agingReceivableVisit (now : ℤ) (cid : Nat) (st : List Leak × Nat × Nat)
    (inv : Invoice) : List Leak × Nat × Nat :=
  let (leaks, nid, cnt) := st
  match findOpenLeak leaks cid .uncollected_receivable
      (fun r => decide (r.invoiceId = some inv.invoiceNumber)) with
  | none =>
      let daysAging := jsFloorDiv (now - inv.dueDate) msPerDay
      let l := leakSave now {
        oid := nid, company := cid, leakType := .uncollected_receivable,
        status := .detected, priority := .critical,
        amount := inv.balance, currency := inv.currency, confidence := 90,
        sourceSystem := inv.sourceSystem,
        sourceReference := { invoiceId := some inv.invoiceNumber,
                             customerId := inv.customerId,
                             transactionId := none, contractId := none },
        detectedAt := now, aging := daysAging,
        recommendedAction := "Immediate escalation to legal/collections team" }
      (leaks ++ [l], nid + 1, cnt + 1)
  | some _ => (leaks, nid, cnt)

/-- detectAgingReceivables (LeakDetectionService lines 233-285). -/
def detectAgingReceivables (now : ℤ) (cid : Nat) (db : DB) : DB × OpResult :=
  let sixtyDaysAgo := now - 60 * msPerDay
  let candidates := db.invoices.filter fun i =>
    decide (i.company = cid) && unpaidStatus i.status &&
    decide (i.balance > 0) && decide (i.dueDate ≤ sixtyDaysAgo)
  let st := candidates.foldl (agingReceivableVisit now cid)
    (db.leaks, db.nextLeakId, 0)
  ({ db with leaks := st.1, nextLeakId := st.2.1 },
   { success := true, count := st.2.2 })

/-- detectLeaks (LeakDetectionService lines 11-25): runs the four detectors
in sequence and returns the per-detector results object, modelled as the
association list of its keys. The total is computed only for a log line. -/
def detectLeaks (now : ℤ) (cid : Nat) (db : DB) : DB × List (String × OpResult) :=
  let s1 := detectMissingPayments now cid db
  let s2 := detectUnderBilling now cid s1.1
  let s3 := detectFailedRenewals now cid s2.1
  let s4 := detectAgingReceivables now cid s3.1
  (s4.1, [("missingPayments", s1.2), ("underBilling", s2.2),
          ("failedRenewals", s3.2), ("agingReceivables", s4.2)])

/-- The logged total: Object.values(results).reduce((sum, r) => sum + r.count, 0). -/
def totalLeaks (results : List (String × OpResult)) : Nat :=
  results.foldl (fun s r => s + r.2.count) 0

/-- A sequence of detectLeaks calls, each with its own timestamp and tenant. -/
def runDetectLeaks (calls : List (ℤ × Nat)) (db : DB) : DB :=
  calls.foldl (fun d c => (detectLeaks c.1 c.2 d).1) db

/-! ## Dedup-invariant vocabulary -/

/-- The sourceReference subfield each detector keys its dedup query on. -/
def keyRef : LeakType → SourceReference → Option String
  | .missing_payment, r => r.invoiceId
  | .uncollected_receivable, r => r.invoiceId
  | .under_billing, r => r.contractId
  | .failed_renewal, r => r.contractId
  | _, _ => none

/-- Open leak matching the detector dedup key (company, type, key subfield). -/
def keyPred (cid : Nat) (t : LeakType) (r : Option String) (l : Leak) : Bool :=
  decide (l.company = cid) && decide (l.leakType = t) &&
  decide (keyRef t l.sourceReference = r) && !(isTerminal l.status)

/-- At most one open leak per detector dedup key. -/
def StrongInv (leaks : List Leak) : Prop :=
  ∀ cid t r, leaks.countP (keyPred cid t r) ≤ 1

/-- Open leak matching the full spec dedup key (tenant, leakType,
entire sourceReference). -/
def openWithKey (cid : Nat) (t : LeakType) (ref : SourceReference) (l : Leak) : Bool :=
  decide (l.company = cid) && decide (l.leakType = t) &&
  decide (l.sourceReference = ref) && !(isTerminal l.status)

/-! ## QuickBooks wire records and mapping -/

/-- Invoice line of the ledger response. -/
structure QBLine where
  Description : Option String
  Qty : Option ℚ
  UnitPrice : Option ℚ
  Amount : Option ℚ
deriving DecidableEq, Repr

/-- Invoice record of the ledger response (fields consumed by syncInvoices). -/
structure QBInvoice where
  Id : String
  DocNumber : String
  CustomerRefValue : Option String
  CustomerRefName : Option String
  TotalAmt : ℚ
  CurrencyRefValue : Option String
  TxnDate : ℤ
  DueDate : ℤ
  Balance : Option ℚ
  Line : List QBLine
deriving DecidableEq, Repr

/-- LinkedTxn entry of a payment line. -/
structure QBLinkedTxn where
  TxnId : String
deriving DecidableEq, Repr

/-- Payment line of the ledger response. -/
structure QBPaymentLine where
  LinkedTxn : List QBLinkedTxn
deriving DecidableEq, Repr

/-- Payment record of the ledger response (fields consumed by syncPayments). -/
structure QBPayment where
  Id : String
  CustomerRefValue : Option String
  CustomerRefName : Option String
  TotalAmt : Option ℚ
  CurrencyRefValue : Option String
  TxnDate : ℤ
  PaymentMethodRefName : Option String
  PaymentRefNum : Option String
  Line : List QBPaymentLine
deriving DecidableEq, Repr

/-- mapQBStatus(balance, total): both arguments read as parseFloat(x || 0). -/
def mapQBStatus (balance total : Option ℚ) : InvStatus :=
  let bal := balance.getD 0
  let tot := total.getD 0
  if bal ≤ 0 then .paid
  else if bal < tot then .partPaid
  else .sent

/-- Character-list version of JS String.prototype.includes: prefix test. -/
def startsWithChars : List Char → List Char → Bool
  | [], _ => true
  | _ :: _, [] => false
  | p :: ps, c :: cs => p == c && startsWithChars ps cs

/-- Character-list version of JS String.prototype.includes: substring test. -/
def containsChars (pat : List Char) : List Char → Bool
  | [] => startsWithChars pat []
  | c :: cs => startsWithChars pat (c :: cs) || containsChars pat cs

/-- JS `s.includes(pat)`. -/
def strIncludes (s pat : String) : Bool := containsChars pat.toList s.toList

/-- mapPaymentMethod(qbMethod): substring match on the lowercased name. -/
def mapPaymentMethod (qbMethod : Option String) : PayMethod :=
  let method := (qbMethod.getD "").toLower
  if strIncludes method "ach" || strIncludes method "bank" then .ach
  else if strIncludes method "wire" then .wire
  else if strIncludes method "check" then .check
  else .other

/-- The invoiceData object built by syncInvoices for one ledger record
(oid 0 is a placeholder: the upsert keeps the old _id or assigns a fresh
one on insert). -/
def mapQBInvoice (cid : Nat) (q : QBInvoice) : Invoice :=
  { oid := 0,
    company := cid,
    invoiceNumber := q.DocNumber,
    customerId := q.CustomerRefValue,
    customerName := q.CustomerRefName,
    amount := q.TotalAmt,
    currency := q.CurrencyRefValue.getD "USD",
    issueDate := q.TxnDate,
    dueDate := q.DueDate,
    paidDate := none,
    status := mapQBStatus q.Balance (some q.TotalAmt),
    lineItems := q.Line.map fun line =>
      { description := line.Description, quantity := line.Qty,
        unitPrice := line.UnitPrice, amount := line.Amount.getD 0 },
    totalPaid := q.TotalAmt - (q.Balance.getD 0),
    balance := q.Balance.getD 0,
    sourceSystem := "quickbooks",
    quickbooksId := q.Id,
    reconciled := false,
    notes := "" }

/-- The paymentData object built by syncPayments for one ledger record.
The invoice-link lookup queries by quickbooksId alone, with no company
filter (quickbooks.service.js line 202). -/
def mapQBPayment (cid : Nat) (invoices : List Invoice) (q : QBPayment) : Payment :=
  let linkedInvoice : Option Nat :=
    match q.Line.head? with
    | none => none
    | some line =>
      match line.LinkedTxn.head? with
      | none => none
      | some lt => (invoices.find? fun i => decide (i.quickbooksId = lt.TxnId)).map (·.oid)
  { oid := 0,
    company := cid,
    paymentId := "QB-" ++ q.Id,
    invoiceId := linkedInvoice,
    customerId := q.CustomerRefValue,
    customerName := q.CustomerRefName,
    amount := q.TotalAmt.getD 0,
    currency := q.CurrencyRefValue.getD "USD",
    paymentDate := q.TxnDate,
    paymentMethod := mapPaymentMethod q.PaymentMethodRefName,
    status := .completed,
    reference := q.PaymentRefNum,
    sourceSystem := "quickbooks",
    quickbooksId := q.Id,
    reconciled := false,
    notes := "" }

/-! ## Generic upsert (findOneAndUpdate with upsert: true) -/

/-- Update the first record satisfying p (findOneAndUpdate semantics). -/
def updateFirst {α : Type} (p : α → Bool) (f : α → α) : List α → List α
  | [] => []
  | x :: xs => if p x then f x :: xs else x :: updateFirst p f xs

/-- findOneAndUpdate(filter-by-key, data, upsert: true): overwrite the first
record with the same key, or append the data with a fresh id. No pre-save
hook runs. State is (store, next fresh id). -/
def upsertByKey {α κ : Type} [DecidableEq κ] (key : α → κ) (ow : α → α → α)
    (withId : Nat → α → α) (st : List α × Nat) (d : α) : List α × Nat :=
  if st.1.any (fun x => decide (key x = key d)) then
    (updateFirst (fun x => decide (key x = key d)) (fun x => ow x d) st.1, st.2)
  else
    (st.1 ++ [withId st.2 d], st.2 + 1)

/-- Fold of upsertByKey over a batch of mapped records. -/
def upsertList {α κ : Type} [DecidableEq κ] (key : α → κ) (ow : α → α → α)
    (withId : Nat → α → α) (st : List α × Nat) (L : List α) : List α × Nat :=
  L.foldl (upsertByKey key ow withId) st

/-- Upsert key of syncInvoices: the pair (quickbooksId, company). -/
def invoiceKey (i : Invoice) : Nat × String := (i.company, i.quickbooksId)

/-- Overwrite the mapped invoice fields, keeping _id and fields absent from
invoiceData (paidDate, reconciled, notes). -/
def overwriteInvoice (old d : Invoice) : Invoice :=
  { d with oid := old.oid, paidDate := old.paidDate,
           reconciled := old.reconciled, notes := old.notes }

/-- Insert the invoice data with a fresh _id. -/
def withInvoiceId (n : Nat) (d : Invoice) : Invoice := { d with oid := n }

/-- Upsert key of syncPayments: the pair (quickbooksId, company). -/
def paymentKey (p : Payment) : Nat × String := (p.company, p.quickbooksId)

/-- Overwrite the mapped payment fields, keeping _id and fields absent from
paymentData; invoiceId is only in the update document when a linked invoice
was found, so a `none` leaves the stored link untouched. -/
def overwritePayment (old d : Payment) : Payment :=
  { d with oid := old.oid,
           invoiceId := match d.invoiceId with
                        | some v => some v
                        | none => old.invoiceId,
           reconciled := old.reconciled, notes := old.notes }

/-- Insert the payment data with a fresh _id. -/
def withPaymentId (n : Nat) (d : Payment) : Payment := { d with oid := n }

/-! ## QuickBooks service -/

/-- The JSON body of a token exchange response. -/
structure TokenJson where
  access_token : String
  refresh_token : String
  expires_in : ℤ
deriving DecidableEq, Repr

/-- Company.findByIdAndUpdate on the quickbooks credential block: one
update of the matching company document. -/
def updateCompanyQB (db : DB) (cid : Nat) (f : QBConfig → QBConfig) : DB :=
  { db with companies := db.companies.map fun c =>
      if c.oid = cid then { c with qb := f c.qb } else c }

/-- refreshAccessToken(company) (quickbooks.service.js lines 49-78).
`exchange` stands for the awaited oauthClient.refresh() outcome; it is only
consulted when the stored expiry is not in the future. On success the three
token fields are persisted as one findByIdAndUpdate; on failure the error
is rethrown and nothing is written. -/
def refreshAccessToken (now : ℤ) (exchange : Except String TokenJson)
    (db : DB) (company : Company) : Except String (DB × String) :=
  let qbConfig := company.qb
  if now < qbConfig.tokenExpiresAt then
    .ok (db, qbConfig.accessToken)
  else
    match exchange with
    | .error e => .error e
    | .ok token =>
        let db1 := updateCompanyQB db company.oid fun q =>
          { q with accessToken := token.access_token,
                   refreshToken := token.refresh_token,
                   tokenExpiresAt := now + token.expires_in * 1000 }
        .ok (db1, token.access_token)

/-- syncInvoices(company) (quickbooks.service.js lines 112-166). `fetch`
stands for the awaited ledger query (makeRequest); a thrown error aborts the
call before any write. After the upsert loop the lastSync marker is set. -/
def syncInvoices (now : ℤ) (fetch : Except String (List QBInvoice))
    (company : Company) (db : DB) : DB × Except String OpResult :=
  match fetch with
  | .error e => (db, .error e)
  | .ok qbInvoices =>
    let st := upsertList invoiceKey overwriteInvoice withInvoiceId
      (db.invoices, db.nextInvoiceId) (qbInvoices.map (mapQBInvoice company.oid))
    let db1 := { db with invoices := st.1, nextInvoiceId := st.2 }
    let db2 := updateCompanyQB db1 company.oid fun q => { q with lastSync := some now }
    (db2, .ok { success := true, count := qbInvoices.length })

/-- syncPayments(company) (quickbooks.service.js lines 171-223). Note: no
write of the lastSync marker anywhere in this function. -/
def syncPayments (now : ℤ) (fetch : Except String (List QBPayment))
    (company : Company) (db : DB) : DB × Except String OpResult :=
  match fetch with
  | .error e => (db, .error e)
  | .ok qbPayments =>
    let st := upsertList paymentKey overwritePayment withPaymentId
      (db.payments, db.nextPaymentId)
      (qbPayments.map (mapQBPayment company.oid db.invoices))
    ({ db with payments := st.1, nextPaymentId := st.2 },
     .ok { success := true, count := qbPayments.length })

/-- fullSync(company): invoices then payments; an exception from either
propagates and skips the rest. -/
def fullSync (now : ℤ) (fetchInv : Except String (List QBInvoice))
    (fetchPay : Except String (List QBPayment)) (company : Company) (db : DB) :
    DB × Except String (OpResult × OpResult) :=
  match syncInvoices now fetchInv company db with
  | (db1, .error e) => (db1, .error e)
  | (db1, .ok rInv) =>
    match syncPayments now fetchPay company db1 with
    | (db2, .error e) => (db2, .error e)
    | (db2, .ok rPay) => (db2, .ok (rInv, rPay))

/-! ## Spec-side definitions used for refinement comparison -/

/-- Modelled from the spec: the status derivation rule of the balance
invariant claim - paid if balance ≤ 0; partial if 0 < balance < amount and
totalPaid > 0; overdue if past the due date with balance > 0; otherwise
unchanged. Compared against what the ingestion upsert actually stores. -/
def specStatusRule (now : ℤ) (amount totalPaid balance : ℚ) (dueDate : ℤ)
    (prev : InvStatus) : InvStatus :=
  if balance ≤ 0 then .paid
  else if 0 < balance ∧ balance < amount ∧ totalPaid > 0 then .partPaid
  else if now > dueDate ∧ balance > 0 then .overdue
  else prev

/-! ## Idempotence vocabulary -/

/-- The store already holds, as first match of the key of d, a record that
overwriting with d leaves unchanged: upserting d is then the identity. -/
def upsertFixed {α κ : Type} [DecidableEq κ] (key : α → κ) (ow : α → α → α)
    (d : α) (s : List α) : Prop :=
  ∃ x, s.find? (fun y => decide (key y = key d)) = some x ∧ ow x d = x

/-! ## Concrete fixtures for witnesses and counterexamples -/

/-- An empty database. -/
def emptyDB : DB :=
  { companies := [], invoices := [], nextInvoiceId := 0, payments := [],
    nextPaymentId := 0, contracts := [], leaks := [], nextLeakId := 0 }

/-- A tenant with id 1 whose stored token expires at time 20. -/
def fixtureCompany : Company :=
  { oid := 1,
    qb := { connected := true, realmId := "r1", accessToken := "tokA",
            refreshToken := "refA", tokenExpiresAt := 20, lastSync := some 5 } }

/-- A ledger invoice record (paid down to a zero balance is not needed
here; balance 600 of 1000). -/
def qbInvFixture : QBInvoice :=
  { Id := "QI1", DocNumber := "INV-1", CustomerRefValue := some "CU1",
    CustomerRefName := some "Acme", TotalAmt := 1000, CurrencyRefValue := none,
    TxnDate := 0, DueDate := 10 * msPerDay, Balance := some 600, Line := [] }

/-- A ledger payment record linked to the invoice QI1. -/
def qbPayFixture : QBPayment :=
  { Id := "QP1", CustomerRefValue := some "CU1", CustomerRefName := some "Acme",
    TotalAmt := some 400, CurrencyRefValue := none, TxnDate := 5 * msPerDay,
    PaymentMethodRefName := none, PaymentRefNum := some "R1",
    Line := [{ LinkedTxn := [{ TxnId := "QI1" }] }] }

/-- A ledger invoice that is fully unpaid and 10 days past due at time 0. -/
def qbOverdueInv : QBInvoice :=
  { Id := "QI2", DocNumber := "INV-2", CustomerRefValue := some "CU1",
    CustomerRefName := some "Acme", TotalAmt := 1000, CurrencyRefValue := none,
    TxnDate := -40 * msPerDay, DueDate := -10 * msPerDay,
    Balance := some 1000, Line := [] }

/-- Scenario B contract: baseFee 1000, monthly, 3-month span. -/
def scnContract : Contract :=
  { oid := 1, company := 1, contractNumber := "CT-1",
    clientCompanyName := "Acme", status := .active, startDate := 0,
    endDate := 90 * msPerDay,
    pricing := { baseFee := 1000, commissionPercentage := 10 },
    billingFrequency := .monthly }

/-- Scenario B invoice: total 2000 issued inside the contract period. -/
def scnInvoice : Invoice :=
  { oid := 1, company := 1, invoiceNumber := "INV-3",
    customerId := some "CU1", customerName := some "Acme", amount := 2000,
    currency := "USD", issueDate := 10 * msPerDay, dueDate := 40 * msPerDay,
    paidDate := none, status := .sent, lineItems := [], totalPaid := 0,
    balance := 2000, sourceSystem := "manual", quickbooksId := "",
    reconciled := false, notes := "" }

/-- An unpaid invoice whose due date is 65 days in the past at the
detection time 65 * msPerDay. -/
def agingInvoice : Invoice :=
  { oid := 2, company := 1, invoiceNumber := "INV-4",
    customerId := some "CU1", customerName := some "Acme", amount := 2000,
    currency := "USD", issueDate := -30 * msPerDay, dueDate := 0,
    paidDate := none, status := .sent, lineItems := [], totalPaid := 0,
    balance := 2000, sourceSystem := "manual", quickbooksId := "",
    reconciled := false, notes := "" }

/-- A terminal (recovered) leak on the dedup key of agingInvoice. -/
def terminalLeak : Leak :=
  { oid := 100, company := 1, leakType := .missing_payment,
    status := .recovered, priority := .low, amount := 0, currency := "USD",
    confidence := 70, sourceSystem := "manual",
    sourceReference := { invoiceId := some "INV-4", customerId := none,
                         transactionId := none, contractId := none },
    detectedAt := 0, aging := 0, recommendedAction := "" }

/-- Database with the aging invoice and a terminal leak on its key. -/
def c1DB : DB :=
  { emptyDB with invoices := [agingInvoice], leaks := [terminalLeak] }

/-- Database with only the aging invoice. -/
def agingDB : DB := { emptyDB with invoices := [agingInvoice] }

/-- An invoice owned by tenant 2 with external id QI9. -/
def crossTenantInvoice : Invoice :=
  { oid := 7, company := 2, invoiceNumber := "INV-9",
    customerId := some "CU2", customerName := some "Beta", amount := 500,
    currency := "USD", issueDate := 0, dueDate := 0, paidDate := none,
    status := .sent, lineItems := [], totalPaid := 0, balance := 500,
    sourceSystem := "quickbooks", quickbooksId := "QI9",
    reconciled := false, notes := "" }

/-- Database where tenant 2 owns the invoice with external id QI9. -/
def crossTenantDB : DB :=
  { emptyDB with companies := [fixtureCompany],
                 invoices := [crossTenantInvoice], nextInvoiceId := 8 }

/-- A ledger payment of tenant 1 whose linked transaction id is QI9. -/
def qbPayCross : QBPayment :=
  { Id := "QP9", CustomerRefValue := some "CU1", CustomerRefName := some "Acme",
    TotalAmt := some 500, CurrencyRefValue := none, TxnDate := 0,
    PaymentMethodRefName := none, PaymentRefNum := none,
    Line := [{ LinkedTxn := [{ TxnId := "QI9" }] }] }

/-- A fresh token pair returned by a successful refresh exchange. -/
def tokenB : TokenJson :=
  { access_token := "tokB", refresh_token := "refB", expires_in := 3600 }

/-- What the aging-receivable detector writes for a created leak: scores,
keys, and the persisted aging, which the pre-save hook recomputes from
detectedAt (so it is 0 at creation), not from the invoice due date. -/
def agingLeakSpec (now : ℤ) (cid : Nat) (db : DB) (lk : Leak) : Prop :=
  lk.company = cid ∧ lk.leakType = .uncollected_receivable ∧
  lk.status = .detected ∧ lk.priority = .critical ∧
  lk.confidence = 90 ∧ lk.detectedAt = now ∧
  lk.aging = jsFloorDiv (now - lk.detectedAt) msPerDay ∧ lk.aging = 0 ∧
  ∃ inv ∈ db.invoices,
    inv.company = cid ∧ unpaidStatus inv.status = true ∧
    inv.balance > 0 ∧ inv.dueDate ≤ now - 60 * msPerDay ∧
    lk.sourceReference.invoiceId = some inv.invoiceNumber ∧
    lk.amount = inv.balance

/-! ## Theorems -/

/-- Every priority rank is at most 3 (the rank of critical). -/
theorem priorityRank_le_three (p : Priority) : p.rank ≤ 3 := by
  cases p <;> simp [Priority.rank]

/-- C9: the scoring functions are monotone: for non-negative amounts a ≤ a1
and day counts d ≤ d1, priority is non-decreasing in each argument with the
other fixed (in the order low < medium < high < critical, expressed by
Priority.rank), and confidence is non-decreasing in the day count. -/
theorem scoring_monotone (a a1 : ℚ) (d d1 : ℤ) (lt : String)
    (ha0 : 0 ≤ a) (ha : a ≤ a1) (hd : d ≤ d1) :
    (calculatePriority a d).rank ≤ (calculatePriority a1 d).rank ∧
    (calculatePriority a d).rank ≤ (calculatePriority a d1).rank ∧
    calculateConfidence lt d ≤ calculateConfidence lt d1 := by
  refine ⟨?_, ?_, ?_⟩
  · unfold calculatePriority
    by_cases c1 : a > 50000 ∨ d > 90
    · have c1a : a1 > 50000 ∨ d > 90 := c1.imp (fun h => lt_of_lt_of_le h ha) id
      rw [if_pos c1, if_pos c1a]
    · by_cases c1a : a1 > 50000 ∨ d > 90
      · rw [if_neg c1, if_pos c1a]
        split_ifs <;> simp [Priority.rank]
      · rw [if_neg c1, if_neg c1a]
        by_cases c2 : a > 10000 ∨ d > 60
        · have c2a : a1 > 10000 ∨ d > 60 := c2.imp (fun h => lt_of_lt_of_le h ha) id
          rw [if_pos c2, if_pos c2a]
        · by_cases c2a : a1 > 10000 ∨ d > 60
          · rw [if_neg c2, if_pos c2a]
            split_ifs <;> simp [Priority.rank]
          · rw [if_neg c2, if_neg c2a]
            by_cases c3 : a > 5000 ∨ d > 30
            · have c3a : a1 > 5000 ∨ d > 30 := c3.imp (fun h => lt_of_lt_of_le h ha) id
              rw [if_pos c3, if_pos c3a]
            · by_cases c3a : a1 > 5000 ∨ d > 30
              · rw [if_neg c3, if_pos c3a]
                simp [Priority.rank]
              · rw [if_neg c3, if_neg c3a]
  · unfold calculatePriority
    by_cases c1 : a > 50000 ∨ d > 90
    · have c1a : a > 50000 ∨ d1 > 90 := c1.imp id (fun h => lt_of_lt_of_le h hd)
      rw [if_pos c1, if_pos c1a]
    · by_cases c1a : a > 50000 ∨ d1 > 90
      · rw [if_neg c1, if_pos c1a]
        split_ifs <;> simp [Priority.rank]
      · rw [if_neg c1, if_neg c1a]
        by_cases c2 : a > 10000 ∨ d > 60
        · have c2a : a > 10000 ∨ d1 > 60 := c2.imp id (fun h => lt_of_lt_of_le h hd)
          rw [if_pos c2, if_pos c2a]
        · by_cases c2a : a > 10000 ∨ d1 > 60
          · rw [if_neg c2, if_pos c2a]
            split_ifs <;> simp [Priority.rank]
          · rw [if_neg c2, if_neg c2a]
            by_cases c3 : a > 5000 ∨ d > 30
            · have c3a : a > 5000 ∨ d1 > 30 := c3.imp id (fun h => lt_of_lt_of_le h hd)
              rw [if_pos c3, if_pos c3a]
            · by_cases c3a : a > 5000 ∨ d1 > 30
              · rw [if_neg c3, if_pos c3a]
                simp [Priority.rank]
              · rw [if_neg c3, if_neg c3a]
  · unfold calculateConfidence
    by_cases e1 : d > 90
    · have e1a : d1 > 90 := lt_of_lt_of_le e1 hd
      rw [if_pos e1, if_pos e1a]
    · by_cases e1a : d1 > 90
      · rw [if_neg e1, if_pos e1a]
        split_ifs <;> norm_num
      · rw [if_neg e1, if_neg e1a]
        by_cases e2 : d > 60
        · have e2a : d1 > 60 := lt_of_lt_of_le e2 hd
          rw [if_pos e2, if_pos e2a]
        · by_cases e2a : d1 > 60
          · rw [if_neg e2, if_pos e2a]
            split_ifs <;> norm_num
          · rw [if_neg e2, if_neg e2a]
            by_cases e3 : d > 30
            · have e3a : d1 > 30 := lt_of_lt_of_le e3 hd
              rw [if_pos e3, if_pos e3a]
            · by_cases e3a : d1 > 30
              · rw [if_neg e3, if_pos e3a]
                split_ifs <;> norm_num
              · rw [if_neg e3, if_neg e3a]
                by_cases e4 : d > 15
                · have e4a : d1 > 15 := lt_of_lt_of_le e4 hd
                  rw [if_pos e4, if_pos e4a]
                · by_cases e4a : d1 > 15
                  · rw [if_neg e4, if_pos e4a]
                    norm_num
                  · rw [if_neg e4, if_neg e4a]

/-- Witness for C9 at amounts 6000 ≤ 20000 and day counts 35 ≤ 70. -/
theorem scoring_monotone_witness :
    (calculatePriority 6000 35).rank ≤ (calculatePriority 20000 35).rank ∧
    (calculatePriority 6000 35).rank ≤ (calculatePriority 6000 70).rank ∧
    calculateConfidence "missing_payment" 35 ≤ calculateConfidence "missing_payment" 70 :=
  scoring_monotone 6000 20000 35 70 "missing_payment" (by norm_num) (by norm_num)
    (by norm_num)

section UpsertLemmas

variable {α κ : Type} [DecidableEq κ] {key : α → κ} {ow : α → α → α}
variable {withId : Nat → α → α}

/-- Elements of updateFirst are old elements or the image of a match. -/
theorem mem_updateFirst {p : α → Bool} {f : α → α} {y : α} :
    ∀ {s : List α}, y ∈ updateFirst p f s → y ∈ s ∨ ∃ x ∈ s, p x = true ∧ y = f x := by
  intro s
  induction s with
  | nil => intro hy; simp [updateFirst] at hy
  | cons x xs ih =>
    intro hy
    simp only [updateFirst] at hy
    by_cases hp : p x
    · rw [if_pos hp] at hy
      rcases List.mem_cons.mp hy with h | h
      · exact .inr ⟨x, List.mem_cons_self x xs, hp, h⟩
      · exact .inl (List.mem_cons_of_mem _ h)
    · rw [if_neg hp] at hy
      rcases List.mem_cons.mp hy with h | h
      · exact .inl (h ▸ List.mem_cons_self x xs)
      · rcases ih h with h2 | ⟨x2, hx2, hp2, hy2⟩
        · exact .inl (List.mem_cons_of_mem _ h2)
        · exact .inr ⟨x2, List.mem_cons_of_mem _ hx2, hp2, hy2⟩

/-- Elements after one upsert: old, overwritten, or freshly inserted. -/
theorem mem_upsertByKey {st : List α × Nat} {d y : α}
    (hy : y ∈ (upsertByKey key ow withId st d).1) :
    y ∈ st.1 ∨ (∃ x, y = ow x d) ∨ y = withId st.2 d := by
  unfold upsertByKey at hy
  by_cases h : st.1.any fun x => decide (key x = key d)
  · rw [if_pos h] at hy
    rcases mem_updateFirst hy with h1 | ⟨x, _, _, h2⟩
    · exact .inl h1
    · exact .inr (.inl ⟨x, h2⟩)
  · rw [if_neg h] at hy
    rcases List.mem_append.mp hy with h1 | h1
    · exact .inl h1
    · exact .inr (.inr (List.mem_singleton.mp h1))

/-- Elements after a batch of upserts: old, or derived from a batch record. -/
theorem mem_upsertList {L : List α} {y : α} :
    ∀ {st : List α × Nat}, y ∈ (upsertList key ow withId st L).1 →
      y ∈ st.1 ∨ ∃ d ∈ L, (∃ x, y = ow x d) ∨ (∃ n, y = withId n d) := by
  induction L with
  | nil => intro st hy; exact .inl hy
  | cons d L ih =>
    intro st hy
    have hy2 : y ∈ (upsertList key ow withId (upsertByKey key ow withId st d) L).1 := hy
    rcases ih hy2 with h1 | ⟨d2, hd2, h2⟩
    · rcases mem_upsertByKey h1 with h3 | h3
      · exact .inl h3
      · refine .inr ⟨d, List.mem_cons_self d L, ?_⟩
        rcases h3 with ⟨x, hx⟩ | hx
        · exact .inl ⟨x, hx⟩
        · exact .inr ⟨st.2, hx⟩
    · exact .inr ⟨d2, List.mem_cons_of_mem _ hd2, h2⟩

/-- updateFirst is the identity when the first match is a fixpoint of f. -/
theorem updateFirst_eq_self {p : α → Bool} {f : α → α} :
    ∀ {s : List α} {x : α}, s.find? p = some x → f x = x → updateFirst p f s = s := by
  intro s
  induction s with
  | nil => intro x h; simp [List.find?] at h
  | cons y ys ih =>
    intro x h hfx
    by_cases hp : p y
    · rw [List.find?_cons_of_pos _ hp, Option.some_inj] at h
      subst h
      simp [updateFirst, if_pos hp, hfx]
    · rw [List.find?_cons_of_neg _ hp] at h
      simp [updateFirst, if_neg hp, ih h hfx]

/-- The first match of updateFirst, when f preserves p. -/
theorem find?_updateFirst_pos {p : α → Bool} {f : α → α} :
    ∀ {s : List α} {x : α}, s.find? p = some x → p (f x) = true →
      (updateFirst p f s).find? p = some (f x) := by
  intro s
  induction s with
  | nil => intro x h; simp [List.find?] at h
  | cons y ys ih =>
    intro x h hfx
    by_cases hp : p y
    · rw [List.find?_cons_of_pos _ hp, Option.some_inj] at h
      subst h
      have hstep : updateFirst p f (y :: ys) = f y :: ys := by
        simp [updateFirst, if_pos hp]
      rw [hstep]
      exact List.find?_cons_of_pos _ hfx
    · rw [List.find?_cons_of_neg _ hp] at h
      have hstep : updateFirst p f (y :: ys) = y :: updateFirst p f ys := by
        simp [updateFirst, if_neg hp]
      rw [hstep, List.find?_cons_of_neg _ hp]
      exact ih h hfx

/-- updateFirst with a predicate disjoint from p does not change find? p. -/
theorem find?_updateFirst_disjoint {p q : α → Bool} {f : α → α}
    (hdisj : ∀ x, q x = true → p x = false ∧ p (f x) = false) :
    ∀ s : List α, (updateFirst q f s).find? p = s.find? p := by
  intro s
  induction s with
  | nil => rfl
  | cons y ys ih =>
    by_cases hq : q y
    · rw [show updateFirst q f (y :: ys) = f y :: ys by simp [updateFirst, if_pos hq]]
      rw [List.find?_cons_of_neg _ (by simp [(hdisj y hq).2]),
          List.find?_cons_of_neg _ (by simp [(hdisj y hq).1])]
    · rw [show updateFirst q f (y :: ys) = y :: updateFirst q f ys by
            simp [updateFirst, if_neg hq]]
      by_cases hp : p y
      · rw [List.find?_cons_of_pos _ hp, List.find?_cons_of_pos _ hp]
      · rw [List.find?_cons_of_neg _ hp, List.find?_cons_of_neg _ hp, ih]

/-- Appending does not change an already-found first match. -/
theorem find?_append_some {p : α → Bool} {l2 : List α} :
    ∀ {s : List α} {x : α}, s.find? p = some x → (s ++ l2).find? p = some x := by
  intro s
  induction s with
  | nil => intro x h; simp [List.find?] at h
  | cons y ys ih =>
    intro x h
    by_cases hp : p y
    · rw [List.find?_cons_of_pos _ hp] at h
      rw [List.cons_append, List.find?_cons_of_pos _ hp]
      exact h
    · rw [List.find?_cons_of_neg _ hp] at h
      rw [List.cons_append, List.find?_cons_of_neg _ hp]
      exact ih h

/-- With no match on the left, find? over an append searches the right. -/
theorem find?_append_none {p : α → Bool} {l2 : List α} :
    ∀ {s : List α}, s.find? p = none → (s ++ l2).find? p = l2.find? p := by
  intro s
  induction s with
  | nil => intro _; rfl
  | cons y ys ih =>
    intro h
    by_cases hp : p y
    · rw [List.find?_cons_of_pos _ hp] at h
      exact absurd h (by simp)
    · rw [List.find?_cons_of_neg _ hp] at h
      rw [List.cons_append, List.find?_cons_of_neg _ hp]
      exact ih h

/-- After upserting d, the store is saturated for d. -/
theorem upsertFixed_upsert_self
    (hk : ∀ x d, key (ow x d) = key d) (ho : ∀ x d, ow (ow x d) d = ow x d)
    (hs : ∀ n d, key (withId n d) = key d)
    (hos : ∀ n d, ow (withId n d) d = withId n d)
    {st : List α × Nat} {d : α} :
    upsertFixed key ow d (upsertByKey key ow withId st d).1 := by
  unfold upsertByKey
  by_cases h : st.1.any fun x => decide (key x = key d)
  · rw [if_pos h]
    obtain ⟨x, hx, hpx⟩ := List.any_eq_true.mp h
    have hsome : (st.1.find? fun x => decide (key x = key d)).isSome :=
      List.find?_isSome.mpr ⟨x, hx, hpx⟩
    obtain ⟨x0, hx0⟩ := Option.isSome_iff_exists.mp hsome
    exact ⟨ow x0 d, find?_updateFirst_pos hx0 (by simp [hk]), ho x0 d⟩
  · rw [if_neg h]
    have hnone : st.1.find? (fun x => decide (key x = key d)) = none := by
      rw [List.find?_eq_none]
      intro y hy hpy
      exact h (List.any_eq_true.mpr ⟨y, hy, hpy⟩)
    refine ⟨withId st.2 d, ?_, hos _ _⟩
    rw [find?_append_none hnone]
    exact List.find?_cons_of_pos _ (by simp [hs])

/-- Upserting a record with a different key preserves saturation for d. -/
theorem upsertFixed_upsert_other
    (hk : ∀ x d, key (ow x d) = key d)
    {d d2 : α} (hne : key d ≠ key d2)
    {st : List α × Nat} (hf : upsertFixed key ow d st.1) :
    upsertFixed key ow d (upsertByKey key ow withId st d2).1 := by
  obtain ⟨x, hfind, hfix⟩ := hf
  unfold upsertByKey
  by_cases h : st.1.any fun x => decide (key x = key d2)
  · rw [if_pos h]
    refine ⟨x, ?_, hfix⟩
    rw [find?_updateFirst_disjoint ?_]
    · exact hfind
    · intro y hqy
      have hy2 : key y = key d2 := of_decide_eq_true hqy
      refine ⟨decide_eq_false ?_, decide_eq_false ?_⟩
      · intro hcon
        exact hne (hcon ▸ hy2)
      · intro hcon
        rw [hk] at hcon
        exact hne hcon.symm
  · rw [if_neg h]
    exact ⟨x, find?_append_some hfind, hfix⟩

/-- Saturation for d survives a fold of upserts over keys different from d. -/
theorem upsertFixed_fold_preserve
    (hk : ∀ x d, key (ow x d) = key d) {d : α} :
    ∀ {L : List α} {st : List α × Nat}, (∀ d2 ∈ L, key d ≠ key d2) →
      upsertFixed key ow d st.1 →
      upsertFixed key ow d (upsertList key ow withId st L).1 := by
  intro L
  induction L with
  | nil => intro st _ hf; exact hf
  | cons d0 L ih =>
    intro st hne hf
    exact ih (fun d2 hd2 => hne d2 (List.mem_cons_of_mem _ hd2))
      (upsertFixed_upsert_other hk (hne d0 (List.mem_cons_self d0 L)) hf)

/-- After a batch with pairwise-distinct keys, the store is saturated
for every record of the batch. -/
theorem upsertFixed_after_list
    (hk : ∀ x d, key (ow x d) = key d) (ho : ∀ x d, ow (ow x d) d = ow x d)
    (hs : ∀ n d, key (withId n d) = key d)
    (hos : ∀ n d, ow (withId n d) d = withId n d) :
    ∀ {L : List α} {st : List α × Nat}, (L.map key).Nodup →
      ∀ d ∈ L, upsertFixed key ow d (upsertList key ow withId st L).1 := by
  intro L
  induction L with
  | nil => intro st _ d hd; cases hd
  | cons d0 L ih =>
    intro st hnd d hd
    have hnd2 := List.nodup_cons.mp hnd
    rcases List.mem_cons.mp hd with rfl | hdL
    · have hkeys : ∀ d2 ∈ L, key d ≠ key d2 := by
        intro d2 hd2 he
        exact hnd2.1 (he ▸ List.mem_map_of_mem key hd2)
      have step : upsertList key ow withId st (d :: L) =
          upsertList key ow withId (upsertByKey key ow withId st d) L := rfl
      rw [step]
      exact upsertFixed_fold_preserve hk hkeys
        (upsertFixed_upsert_self hk ho hs hos)
    · exact ih hnd2.2 d hdL

/-- A batch upsert over a saturated store is the identity. -/
theorem upsertList_eq_self :
    ∀ {L : List α} {st : List α × Nat}, (∀ d ∈ L, upsertFixed key ow d st.1) →
      upsertList key ow withId st L = st := by
  intro L
  induction L with
  | nil => intro st _; rfl
  | cons d0 L ih =>
    intro st hall
    obtain ⟨x, hfind, hfix⟩ := hall d0 (List.mem_cons_self d0 L)
    have hup : upsertByKey key ow withId st d0 = st := by
      unfold upsertByKey
      have hpx := List.find?_some hfind
      have hany : st.1.any (fun x => decide (key x = key d0)) = true :=
        List.any_eq_true.mpr ⟨x, List.mem_of_find?_eq_some hfind, hpx⟩
      rw [if_pos hany, updateFirst_eq_self hfind hfix]
    have step : upsertList key ow withId st (d0 :: L) =
        upsertList key ow withId (upsertByKey key ow withId st d0) L := rfl
    rw [step, hup]
    exact ih (fun d hd => hall d (List.mem_cons_of_mem _ hd))

/-- Re-running a batch upsert with pairwise-distinct keys is the identity. -/
theorem upsertList_idem
    (hk : ∀ x d, key (ow x d) = key d) (ho : ∀ x d, ow (ow x d) d = ow x d)
    (hs : ∀ n d, key (withId n d) = key d)
    (hos : ∀ n d, ow (withId n d) d = withId n d)
    {L : List α} {st : List α × Nat} (hnd : (L.map key).Nodup) :
    upsertList key ow withId (upsertList key ow withId st L) L =
      upsertList key ow withId st L :=
  upsertList_eq_self (fun d hd => upsertFixed_after_list hk ho hs hos hnd d hd)

end UpsertLemmas

/-- Key and overwrite laws of the invoice upsert. -/
theorem invoice_upsert_laws :
    (∀ x d, invoiceKey (overwriteInvoice x d) = invoiceKey d) ∧
    (∀ x d, overwriteInvoice (overwriteInvoice x d) d = overwriteInvoice x d) ∧
    (∀ n d, invoiceKey (withInvoiceId n d) = invoiceKey d) ∧
    (∀ n d, overwriteInvoice (withInvoiceId n d) d = withInvoiceId n d) :=
  ⟨fun _ _ => rfl, fun _ _ => rfl, fun _ _ => rfl, fun _ _ => rfl⟩

/-- Key and overwrite laws of the payment upsert. -/
theorem payment_upsert_laws :
    (∀ x d, paymentKey (overwritePayment x d) = paymentKey d) ∧
    (∀ x d, overwritePayment (overwritePayment x d) d = overwritePayment x d) ∧
    (∀ n d, paymentKey (withPaymentId n d) = paymentKey d) ∧
    (∀ n d, overwritePayment (withPaymentId n d) d = withPaymentId n d) := by
  refine ⟨fun _ _ => rfl, fun x d => ?_, fun _ _ => rfl, fun n d => ?_⟩
  · cases h : d.invoiceId <;> simp [overwritePayment, h]
  · cases h : d.invoiceId <;> simp [overwritePayment, withPaymentId, h]

/-- C3: running fullSync twice with unchanged upstream ledger data yields
identical stored Invoice and Payment sets: each record is upserted keyed by
(tenant, external id) - inserted if absent, all mapped fields overwritten if
present - so the second run creates no duplicates and changes no field.
The upstream ids of one batch are assumed pairwise distinct, as ledger ids
are. -/
theorem fullSync_idempotent (now1 now2 : ℤ) (qinvs : List QBInvoice)
    (qpays : List QBPayment) (c : Company) (db : DB)
    (hI : (qinvs.map (fun q => q.Id)).Nodup)
    (hP : (qpays.map (fun q => q.Id)).Nodup) :
    ((fullSync now2 (.ok qinvs) (.ok qpays) c
        (fullSync now1 (.ok qinvs) (.ok qpays) c db).1).1.invoices =
      (fullSync now1 (.ok qinvs) (.ok qpays) c db).1.invoices) ∧
    ((fullSync now2 (.ok qinvs) (.ok qpays) c
        (fullSync now1 (.ok qinvs) (.ok qpays) c db).1).1.payments =
      (fullSync now1 (.ok qinvs) (.ok qpays) c db).1.payments) := by
  have lawsI := invoice_upsert_laws
  have lawsP := payment_upsert_laws
  have hinj : Function.Injective (fun s : String => (c.oid, s)) := by
    intro a b h
    simpa using congrArg Prod.snd h
  have hndI : ((qinvs.map (mapQBInvoice c.oid)).map invoiceKey).Nodup := by
    have he : (qinvs.map (mapQBInvoice c.oid)).map invoiceKey
        = (qinvs.map (fun q => q.Id)).map (fun s => (c.oid, s)) := by
      rw [List.map_map, List.map_map]
      rfl
    rw [he]
    exact List.Nodup.map hinj hI
  have hndP : ∀ invs : List Invoice,
      ((qpays.map (mapQBPayment c.oid invs)).map paymentKey).Nodup := by
    intro invs
    have he : (qpays.map (mapQBPayment c.oid invs)).map paymentKey
        = (qpays.map (fun q => q.Id)).map (fun s => (c.oid, s)) := by
      rw [List.map_map, List.map_map]
      rfl
    rw [he]
    exact List.Nodup.map hinj hP
  have hidemI : upsertList invoiceKey overwriteInvoice withInvoiceId
      (upsertList invoiceKey overwriteInvoice withInvoiceId
        (db.invoices, db.nextInvoiceId) (qinvs.map (mapQBInvoice c.oid)))
      (qinvs.map (mapQBInvoice c.oid)) =
      upsertList invoiceKey overwriteInvoice withInvoiceId
        (db.invoices, db.nextInvoiceId) (qinvs.map (mapQBInvoice c.oid)) :=
    upsertList_idem lawsI.1 lawsI.2.1 lawsI.2.2.1 lawsI.2.2.2 hndI
  constructor
  · show (upsertList invoiceKey overwriteInvoice withInvoiceId
        (upsertList invoiceKey overwriteInvoice withInvoiceId
          (db.invoices, db.nextInvoiceId) (qinvs.map (mapQBInvoice c.oid)))
        (qinvs.map (mapQBInvoice c.oid))).1 =
      (upsertList invoiceKey overwriteInvoice withInvoiceId
        (db.invoices, db.nextInvoiceId) (qinvs.map (mapQBInvoice c.oid))).1
    rw [hidemI]
  · show (upsertList paymentKey overwritePayment withPaymentId
        (upsertList paymentKey overwritePayment withPaymentId
          (db.payments, db.nextPaymentId)
          (qpays.map (mapQBPayment c.oid
            (upsertList invoiceKey overwriteInvoice withInvoiceId
              (db.invoices, db.nextInvoiceId)
              (qinvs.map (mapQBInvoice c.oid))).1)))
        (qpays.map (mapQBPayment c.oid
          (upsertList invoiceKey overwriteInvoice withInvoiceId
            (upsertList invoiceKey overwriteInvoice withInvoiceId
              (db.invoices, db.nextInvoiceId)
              (qinvs.map (mapQBInvoice c.oid)))
            (qinvs.map (mapQBInvoice c.oid))).1))).1 =
      (upsertList paymentKey overwritePayment withPaymentId
        (db.payments, db.nextPaymentId)
        (qpays.map (mapQBPayment c.oid
          (upsertList invoiceKey overwriteInvoice withInvoiceId
            (db.invoices, db.nextInvoiceId)
            (qinvs.map (mapQBInvoice c.oid))).1))).1
    rw [hidemI]
    rw [upsertList_idem lawsP.1 lawsP.2.1 lawsP.2.2.1 lawsP.2.2.2 (hndP _)]

/-- Witness for C3: one concrete invoice and one concrete linked payment,
synced twice from an empty database. -/
theorem fullSync_idempotent_witness :
    ((fullSync 200 (.ok [qbInvFixture]) (.ok [qbPayFixture]) fixtureCompany
        (fullSync 100 (.ok [qbInvFixture]) (.ok [qbPayFixture]) fixtureCompany
          emptyDB).1).1.invoices =
      (fullSync 100 (.ok [qbInvFixture]) (.ok [qbPayFixture]) fixtureCompany
        emptyDB).1.invoices) ∧
    ((fullSync 200 (.ok [qbInvFixture]) (.ok [qbPayFixture]) fixtureCompany
        (fullSync 100 (.ok [qbInvFixture]) (.ok [qbPayFixture]) fixtureCompany
          emptyDB).1).1.payments =
      (fullSync 100 (.ok [qbInvFixture]) (.ok [qbPayFixture]) fixtureCompany
        emptyDB).1.payments) :=
  fullSync_idempotent 100 200 [qbInvFixture] [qbPayFixture] fixtureCompany
    emptyDB (by decide) (by decide)

/-- C5 amended: on successful completion of syncInvoices the lastSync marker
of the tenant is set to the sync time; syncPayments advances no marker
at all (it writes no company document); and a failed fetch makes either
call fail with no database change, so the marker is not advanced on
failure. -/
theorem syncMarker_spec :
    (∀ (now : ℤ) (qbs : List QBInvoice) (c : Company) (db : DB),
      ∀ co ∈ ((syncInvoices now (Except.ok qbs) c db).1).companies,
        co.oid = c.oid → co.qb.lastSync = some now) ∧
    (∀ (now : ℤ) (qps : List QBPayment) (c : Company) (db : DB),
      ((syncPayments now (Except.ok qps) c db).1).companies = db.companies) ∧
    (∀ (now : ℤ) (e : String) (c : Company) (db : DB),
      syncInvoices now (Except.error e) c db = (db, Except.error e)) ∧
    (∀ (now : ℤ) (e : String) (c : Company) (db : DB),
      syncPayments now (Except.error e) c db = (db, Except.error e)) := by
  refine ⟨?_, ?_, ?_, ?_⟩
  · intro now qbs c db co hco hoid
    have hco2 : co ∈ db.companies.map (fun x =>
        if x.oid = c.oid then { x with qb := { x.qb with lastSync := some now } }
        else x) := hco
    obtain ⟨x, hx, hxe⟩ := List.mem_map.mp hco2
    by_cases h : x.oid = c.oid
    · rw [if_pos h] at hxe
      rw [← hxe]
    · rw [if_neg h] at hxe
      subst hxe
      exact absurd hoid h
  · intro now qps c db
    rfl
  · intro now e c db
    rfl
  · intro now e c db
    rfl

/-- Witness for C5 at a concrete tenant: the successful invoice sync sets
the marker, the payment sync leaves the company store untouched, and a
failed fetch changes nothing. -/
theorem syncMarker_spec_witness :
    (∃ co ∈ ((syncInvoices 100 (Except.ok ([] : List QBInvoice)) fixtureCompany
        { emptyDB with companies := [fixtureCompany] }).1).companies,
      co.qb.lastSync = some 100) ∧
    ((syncPayments 100 (Except.ok ([] : List QBPayment)) fixtureCompany
        { emptyDB with companies := [fixtureCompany] }).1).companies =
      [fixtureCompany] ∧
    syncInvoices 100 (Except.error "boom") fixtureCompany emptyDB =
      (emptyDB, Except.error "boom") := by
  refine ⟨⟨_, List.mem_cons_self _ _, ?_⟩,
    syncMarker_spec.2.1 100 [] fixtureCompany _,
    syncMarker_spec.2.2.1 100 "boom" fixtureCompany emptyDB⟩
  exact syncMarker_spec.1 100 [] fixtureCompany
    { emptyDB with companies := [fixtureCompany] } _
    (List.mem_cons_self _ _) (by decide)

/-- C5 counterexample: a successful syncPayments call completes with
success but leaves the lastSync marker at its old value 5 instead of
advancing it to the sync time 100. -/
theorem syncPayments_marker_counterexample :
    ((syncPayments 100 (Except.ok ([] : List QBPayment)) fixtureCompany
        { emptyDB with companies := [fixtureCompany] }).2 =
      Except.ok { success := true, count := 0 }) ∧
    ((syncPayments 100 (Except.ok ([] : List QBPayment)) fixtureCompany
        { emptyDB with companies := [fixtureCompany] }).1).companies.map
        (fun co => co.qb.lastSync) = [some 5] ∧
    some (5 : ℤ) ≠ some (100 : ℤ) := by
  refine ⟨rfl, by decide, by decide⟩

/-- C7: refreshAccessToken returns the stored access token with no state
change when the stored expiry is in the future; otherwise, on a successful
exchange it persists the new access token, refresh token, and expiry
now + expires_in seconds (in ms) as one update of the tenant company -
every other company is untouched - and returns the new access token; on a
failed exchange the error propagates and, structurally, no state is
produced, so the credential block is never partially written. -/
theorem refreshAccessToken_spec (now : ℤ) (exchange : Except String TokenJson)
    (db : DB) (c : Company) :
    (now < c.qb.tokenExpiresAt →
      refreshAccessToken now exchange db c = .ok (db, c.qb.accessToken)) ∧
    (¬ now < c.qb.tokenExpiresAt → ∀ tok, exchange = .ok tok →
      (refreshAccessToken now exchange db c =
        .ok (updateCompanyQB db c.oid fun q =>
          { q with accessToken := tok.access_token,
                   refreshToken := tok.refresh_token,
                   tokenExpiresAt := now + tok.expires_in * 1000 },
          tok.access_token)) ∧
      ∀ co ∈ db.companies,
        (co.oid = c.oid →
          { co with qb := { co.qb with
              accessToken := tok.access_token,
              refreshToken := tok.refresh_token,
              tokenExpiresAt := now + tok.expires_in * 1000 } } ∈
            (updateCompanyQB db c.oid fun q =>
              { q with accessToken := tok.access_token,
                       refreshToken := tok.refresh_token,
                       tokenExpiresAt := now + tok.expires_in * 1000 }).companies) ∧
        (co.oid ≠ c.oid → co ∈
            (updateCompanyQB db c.oid fun q =>
              { q with accessToken := tok.access_token,
                       refreshToken := tok.refresh_token,
                       tokenExpiresAt := now + tok.expires_in * 1000 }).companies)) ∧
    (¬ now < c.qb.tokenExpiresAt → ∀ e, exchange = .error e →
      refreshAccessToken now exchange db c = .error e) := by
  refine ⟨?_, ?_, ?_⟩
  · intro h
    unfold refreshAccessToken
    rw [if_pos h]
  · intro h tok hex
    subst hex
    constructor
    · unfold refreshAccessToken
      rw [if_neg h]
    · intro co hco
      have hmem : (if co.oid = c.oid then
            { co with qb := { co.qb with
                accessToken := tok.access_token,
                refreshToken := tok.refresh_token,
                tokenExpiresAt := now + tok.expires_in * 1000 } }
          else co) ∈
          (updateCompanyQB db c.oid fun q =>
            { q with accessToken := tok.access_token,
                     refreshToken := tok.refresh_token,
                     tokenExpiresAt := now + tok.expires_in * 1000 }).companies :=
        List.mem_map_of_mem
          (fun x => if x.oid = c.oid then
            { x with qb := { x.qb with
                accessToken := tok.access_token,
                refreshToken := tok.refresh_token,
                tokenExpiresAt := now + tok.expires_in * 1000 } }
          else x) hco
      constructor
      · intro heq
        rw [if_pos heq] at hmem
        exact hmem
      · intro hne
        rw [if_neg hne] at hmem
        exact hmem
  · intro h e hex
    subst hex
    unfold refreshAccessToken
    rw [if_neg h]

/-- Witness for C7 on the concrete tenant whose token expires at 20: a call
at 10 returns the stored token unchanged, a call at 30 with a successful
exchange persists and returns the new token, and a call at 30 with a
failed exchange propagates the error. -/
theorem refreshAccessToken_spec_witness :
    (refreshAccessToken 10 (Except.error "down")
        { emptyDB with companies := [fixtureCompany] } fixtureCompany =
      .ok ({ emptyDB with companies := [fixtureCompany] }, "tokA")) ∧
    (refreshAccessToken 30 (Except.ok tokenB)
        { emptyDB with companies := [fixtureCompany] } fixtureCompany =
      .ok (updateCompanyQB { emptyDB with companies := [fixtureCompany] }
        fixtureCompany.oid fun q =>
          { q with accessToken := tokenB.access_token,
                   refreshToken := tokenB.refresh_token,
                   tokenExpiresAt := 30 + tokenB.expires_in * 1000 },
        tokenB.access_token)) ∧
    (refreshAccessToken 30 (Except.error "down")
        { emptyDB with companies := [fixtureCompany] } fixtureCompany =
      .error "down") :=
  ⟨(refreshAccessToken_spec 10 (Except.error "down")
      { emptyDB with companies := [fixtureCompany] } fixtureCompany).1 (by decide),
   ((refreshAccessToken_spec 30 (Except.ok tokenB)
      { emptyDB with companies := [fixtureCompany] } fixtureCompany).2.1
      (by decide) tokenB rfl).1,
   (refreshAccessToken_spec 30 (Except.error "down")
      { emptyDB with companies := [fixtureCompany] } fixtureCompany).2.2
      (by decide) "down" rfl⟩

/-- C8 amended: detectLeaks runs all four detectors in sequence, threading
the database, and returns exactly the four per-detector results keyed by
detector name; the total is computed only for a log line and is not part
of the returned value. -/
theorem detectLeaks_returns (now : ℤ) (cid : Nat) (db : DB) :
    ((detectLeaks now cid db).2.map Prod.fst =
      ["missingPayments", "underBilling", "failedRenewals", "agingReceivables"]) ∧
    ((detectLeaks now cid db).2.map Prod.snd =
      [(detectMissingPayments now cid db).2,
       (detectUnderBilling now cid (detectMissingPayments now cid db).1).2,
       (detectFailedRenewals now cid
         (detectUnderBilling now cid (detectMissingPayments now cid db).1).1).2,
       (detectAgingReceivables now cid
         (detectFailedRenewals now cid
           (detectUnderBilling now cid
             (detectMissingPayments now cid db).1).1).1).2]) ∧
    ((detectLeaks now cid db).1 =
      (detectAgingReceivables now cid
        (detectFailedRenewals now cid
          (detectUnderBilling now cid
            (detectMissingPayments now cid db).1).1).1).1) :=
  ⟨rfl, rfl, rfl⟩

/-- C8 counterexample: at a concrete input the object returned by
detectLeaks holds exactly the four per-detector keys; no key carries a
total, so the returned value does not include a total. -/
theorem detectLeaks_no_total_counterexample :
    ((detectLeaks 0 1 emptyDB).2.map Prod.fst =
      ["missingPayments", "underBilling", "failedRenewals", "agingReceivables"]) ∧
    ¬ ("total" ∈ (detectLeaks 0 1 emptyDB).2.map Prod.fst) ∧
    ¬ ("totalLeaks" ∈ (detectLeaks 0 1 emptyDB).2.map Prod.fst) ∧
    totalLeaks (detectLeaks 0 1 emptyDB).2 = 0 := by
  decide

/-- C10: the payment-to-invoice link lookup in syncPayments queries by the
quickbooks id alone, with no tenant restriction: in a state where tenant 2
owns the invoice with external id QI9, the payment synced for tenant 1 and
linked to QI9 ends up stored with a reference to the invoice of tenant 2. -/
theorem syncPayments_crossTenant_link :
    ((syncPayments 0 (Except.ok [qbPayCross]) fixtureCompany
        crossTenantDB).1.payments.map (fun p => (p.company, p.invoiceId))) =
      [(1, some 7)] ∧
    crossTenantInvoice.oid = 7 ∧ crossTenantInvoice.company = 2 ∧
    fixtureCompany.oid = 1 ∧ (2 : Nat) ≠ 1 := by
  decide

/-- C2 amended: after any upsert performed by the ingestion pipeline, every
invoice written satisfies balance = amount - totalPaid, and its status
follows the upsert derivation: paid if balance ≤ 0, partial if
balance < amount, else sent. The upsert (findOneAndUpdate) bypasses the
pre-save hook, so the overdue branch of the spec rule is never applied by
the pipeline. -/
theorem syncInvoices_balance_invariant (now : ℤ) (qbs : List QBInvoice)
    (c : Company) (db : DB) :
    ∀ inv ∈ ((syncInvoices now (Except.ok qbs) c db).1).invoices,
      inv ∈ db.invoices ∨
      (inv.balance = inv.amount - inv.totalPaid ∧
        inv.status = (if inv.balance ≤ 0 then InvStatus.paid
          else if inv.balance < inv.amount then InvStatus.partPaid
          else InvStatus.sent)) := by
  intro inv hinv
  have hinv2 : inv ∈ (upsertList invoiceKey overwriteInvoice withInvoiceId
      (db.invoices, db.nextInvoiceId) (qbs.map (mapQBInvoice c.oid))).1 := hinv
  rcases mem_upsertList hinv2 with h | ⟨d, hd, hcase⟩
  · exact .inl h
  · right
    obtain ⟨q, hq, rfl⟩ := List.mem_map.mp hd
    have hfields : inv.balance = (mapQBInvoice c.oid q).balance ∧
        inv.amount = (mapQBInvoice c.oid q).amount ∧
        inv.totalPaid = (mapQBInvoice c.oid q).totalPaid ∧
        inv.status = (mapQBInvoice c.oid q).status := by
      rcases hcase with ⟨x, rfl⟩ | ⟨n, rfl⟩
      · exact ⟨rfl, rfl, rfl, rfl⟩
      · exact ⟨rfl, rfl, rfl, rfl⟩
    obtain ⟨hb, ha, ht, hs⟩ := hfields
    constructor
    · rw [hb, ha, ht]
      show q.Balance.getD 0 = q.TotalAmt - (q.TotalAmt - q.Balance.getD 0)
      ring
    · rw [hs, hb, ha]
      rfl

/-- Witness for C2 at a concrete record: the stored invoice satisfies the
balance identity and carries the upsert-derived status sent. -/
theorem syncInvoices_balance_invariant_witness :
    ∃ inv ∈ ((syncInvoices 0 (Except.ok [qbOverdueInv]) fixtureCompany
        emptyDB).1).invoices,
      inv.balance = inv.amount - inv.totalPaid ∧ inv.status = InvStatus.sent := by
  have h := syncInvoices_balance_invariant 0 [qbOverdueInv] fixtureCompany emptyDB
  refine ⟨_, List.mem_cons_self _ _, ?_⟩
  rcases h _ (List.mem_cons_self _ _) with hin | ⟨hb, hs⟩
  · exact absurd hin (List.not_mem_nil _)
  · exact ⟨hb, by rw [hs]; decide⟩

/-- C2 counterexample: for a fully unpaid invoice 10 days past due, the
pipeline upsert stores status sent, while the status derivation rule of the
claim yields overdue on the very same stored fields; so after this upsert
the stored status does not match the claimed rule. -/
theorem syncInvoices_status_counterexample :
    (((syncInvoices 0 (Except.ok [qbOverdueInv]) fixtureCompany
        emptyDB).1).invoices.map
        (fun i => (i.status, i.amount, i.balance, i.dueDate)) =
      [(InvStatus.sent, (1000 : ℚ), (1000 : ℚ), -10 * msPerDay)]) ∧
    specStatusRule 0 1000 0 1000 (-10 * msPerDay) InvStatus.sent =
      InvStatus.overdue ∧
    InvStatus.sent ≠ InvStatus.overdue := by
  refine ⟨by decide, by decide, by decide⟩

/-- Ceiling division is invariant under scaling numerator and divisor by a
positive factor (duration in ms over 30 days in ms equals days over 30). -/
theorem jsCeilDiv_scale (d k m : ℤ) (hk : 0 ≤ k) (hm : 0 < m) :
    jsCeilDiv (d * m) (k * m) = jsCeilDiv d k := by
  unfold jsCeilDiv
  have h1 : -(d * m) = -d * m := by ring
  rw [h1, Int.fdiv_eq_ediv _ (mul_nonneg hk hm.le), Int.fdiv_eq_ediv _ hk,
    Int.mul_ediv_mul_of_pos_left (-d) k hm]

/-- C4: for an active contract the under-billing detector sums the amounts
of invoices issued within the contract period, computes
expected = baseFee * ceil(durationDays / 30) for monthly billing,
baseFee * ceil(ceil(durationDays / 30) / 3) for quarterly, and baseFee
otherwise; it creates a leak exactly when
(expected - totalBilled) / expected > 5 / 100 and no open leak exists for
the contract dedup key, and the created leak has priority high iff the
under-billed amount exceeds 10000 (else medium) and confidence 85. -/
theorem detectUnderBilling_spec (now : ℤ) (cid : Nat) (invoices : List Invoice)
    (leaks : List Leak) (nid cnt : Nat) (c : Contract) (d : ℤ)
    (hdur : c.endDate - c.startDate = d * msPerDay) :
    ((c.billingFrequency = .monthly →
        calculateExpectedBilling c =
          c.pricing.baseFee * ((jsCeilDiv d 30 : ℤ) : ℚ)) ∧
     (c.billingFrequency = .quarterly →
        calculateExpectedBilling c =
          c.pricing.baseFee * ((jsCeilDiv (jsCeilDiv d 30) 3 : ℤ) : ℚ)) ∧
     (c.billingFrequency = .annually →
        calculateExpectedBilling c = c.pricing.baseFee)) ∧
    ((underBillingVisit now cid invoices (leaks, nid, cnt) c).1.length =
        leaks.length + 1 ↔
      ((calculateExpectedBilling c - contractTotalBilled cid invoices c) /
          calculateExpectedBilling c > 5 / 100 ∧
        findOpenLeak leaks cid .under_billing
          (fun r => decide (r.contractId = some c.contractNumber)) = none)) ∧
    ((calculateExpectedBilling c - contractTotalBilled cid invoices c) /
        calculateExpectedBilling c > 5 / 100 →
      findOpenLeak leaks cid .under_billing
        (fun r => decide (r.contractId = some c.contractNumber)) = none →
      ∃ lk, (underBillingVisit now cid invoices (leaks, nid, cnt) c).1 =
          leaks ++ [lk] ∧
        lk.company = cid ∧ lk.leakType = .under_billing ∧
        lk.status = .detected ∧
        lk.priority = (if calculateExpectedBilling c -
            contractTotalBilled cid invoices c > 10000 then Priority.high
          else Priority.medium) ∧
        lk.amount = calculateExpectedBilling c -
          contractTotalBilled cid invoices c ∧
        lk.confidence = 85 ∧
        lk.sourceReference.contractId = some c.contractNumber) := by
  have hequiv : ((calculateExpectedBilling c - contractTotalBilled cid invoices c) /
      calculateExpectedBilling c * 100 > 5) ↔
      ((calculateExpectedBilling c - contractTotalBilled cid invoices c) /
      calculateExpectedBilling c > 5 / 100) := by
    constructor <;> intro h <;> linarith
  have hmonths : jsCeilDiv (c.endDate - c.startDate) (30 * msPerDay) =
      jsCeilDiv d 30 := by
    rw [hdur]
    exact jsCeilDiv_scale d 30 msPerDay (by norm_num) (by norm_num [msPerDay])
  refine ⟨⟨?_, ?_, ?_⟩, ?_, ?_⟩
  · intro hf
    unfold calculateExpectedBilling
    rw [hmonths, hf]
  · intro hf
    unfold calculateExpectedBilling
    rw [hmonths, hf]
  · intro hf
    unfold calculateExpectedBilling
    rw [hmonths, hf]
  · by_cases hc : (calculateExpectedBilling c - contractTotalBilled cid invoices c) /
        calculateExpectedBilling c * 100 > 5
    · cases hg : findOpenLeak leaks cid .under_billing
          (fun r => decide (r.contractId = some c.contractNumber)) with
      | none =>
        simp only [underBillingVisit]
        rw [if_pos hc, hg]
        constructor
        · intro _
          exact ⟨hequiv.mp hc, trivial⟩
        · intro _
          simp
      | some ex =>
        simp only [underBillingVisit]
        rw [if_pos hc, hg]
        constructor
        · intro hlen
          have hlen2 : leaks.length = leaks.length + 1 := hlen
          omega
        · rintro ⟨_, hnone⟩
          exact absurd hnone (Option.some_ne_none ex)
    · simp only [underBillingVisit]
      rw [if_neg hc]
      constructor
      · intro hlen
        have hlen2 : leaks.length = leaks.length + 1 := hlen
        omega
      · rintro ⟨hp, _⟩
        exact absurd (hequiv.mpr hp) hc
  · intro hp hg
    have hc := hequiv.mpr hp
    refine ⟨leakSave now {
        oid := nid, company := cid, leakType := .under_billing,
        status := .detected,
        priority := if calculateExpectedBilling c -
            contractTotalBilled cid invoices c > 10000 then .high else .medium,
        amount := calculateExpectedBilling c - contractTotalBilled cid invoices c,
        currency := "USD", confidence := 85, sourceSystem := "manual",
        sourceReference := { invoiceId := none, customerId := none,
                             transactionId := none,
                             contractId := some c.contractNumber },
        detectedAt := now, aging := 0,
        recommendedAction := "Review contract terms and issue corrective invoice" },
      ?_, rfl, rfl, rfl, rfl, rfl, rfl, rfl⟩
    simp only [underBillingVisit]
    rw [if_pos hc, hg]

/-- Witness for C4: Scenario B - contract with baseFee 1000, monthly
billing, 3-month span, invoiced total 2000: expected 3000, under-billed by
a third, so a leak of amount 1000 with priority medium and confidence 85
is created. -/
theorem detectUnderBilling_spec_witness :
    calculateExpectedBilling scnContract = 3000 ∧
    contractTotalBilled 1 [scnInvoice] scnContract = 2000 ∧
    ∃ lk, (underBillingVisit 0 1 [scnInvoice] ([], 0, 0) scnContract).1 = [lk] ∧
      lk.priority = Priority.medium ∧ lk.confidence = 85 ∧ lk.amount = 1000 := by
  have h := detectUnderBilling_spec 0 1 [scnInvoice] [] 0 0 scnContract 90
    (by decide)
  have hj : jsCeilDiv 90 30 = 3 := by decide
  have he : calculateExpectedBilling scnContract = 3000 := by
    have hm := h.1.1 rfl
    rw [hm, hj]
    norm_num [scnContract]
  have ht : contractTotalBilled 1 [scnInvoice] scnContract = 2000 := by
    norm_num [contractTotalBilled, scnInvoice, scnContract, msPerDay]
  have hcond : (calculateExpectedBilling scnContract -
      contractTotalBilled 1 [scnInvoice] scnContract) /
      calculateExpectedBilling scnContract > 5 / 100 := by
    rw [he, ht]
    norm_num
  obtain ⟨lk, hlist, _, _, _, hprio, hamt, hconf, _⟩ := h.2.2 hcond rfl
  refine ⟨he, ht, lk, by simpa using hlist, ?_, hconf, ?_⟩
  · rw [hprio, he, ht]
    norm_num
  · rw [hamt, he, ht]
    norm_num

/-- A fold preserves an invariant preserved by each step on list elements. -/
theorem foldl_inv_mem {σ χ : Type} (Inv : σ → Prop) (f : σ → χ → σ)
    (L : List χ) (hf : ∀ s x, x ∈ L → Inv s → Inv (f s x)) :
    ∀ s, Inv s → Inv (L.foldl f s) := by
  induction L with
  | nil => intro s h; exact h
  | cons x xs ih =>
    intro s h
    exact ih (fun s2 y hy h2 => hf s2 y (List.mem_cons_of_mem _ hy) h2) _
      (hf s x (List.mem_cons_self x xs) h)

/-- C6 amended: every leak the uncollected-receivable detector creates and
persists keys a candidate invoice (status in the unpaid set, balance > 0,
due at least 60 days in the past) with no prior open leak, and carries
priority critical, confidence 90, amount = invoice balance; its persisted
aging, however, equals the whole days since the detectedAt of the leak itself
timestamp - zero at creation, because the pre-save hook recomputes aging
from detectedAt - and not the days since the invoice due date. -/
theorem detectAgingReceivables_spec (now : ℤ) (cid : Nat) (db : DB) :
    ∀ lk ∈ ((detectAgingReceivables now cid db).1).leaks,
      lk ∈ db.leaks ∨ agingLeakSpec now cid db lk := by
  have main : ∀ lk ∈ ((db.invoices.filter fun i =>
      decide (i.company = cid) && unpaidStatus i.status &&
      decide (i.balance > 0) &&
      decide (i.dueDate ≤ now - 60 * msPerDay)).foldl
        (agingReceivableVisit now cid) (db.leaks, db.nextLeakId, 0)).1,
      lk ∈ db.leaks ∨ agingLeakSpec now cid db lk := by
    refine foldl_inv_mem
      (fun st => ∀ lk ∈ st.1, lk ∈ db.leaks ∨ agingLeakSpec now cid db lk)
      (agingReceivableVisit now cid) _ ?_ (db.leaks, db.nextLeakId, 0)
      (fun lk h => .inl h)
    intro s inv hinvmem hInv
    obtain ⟨hmem, hcond⟩ := List.mem_filter.mp hinvmem
    simp only [Bool.and_eq_true, decide_eq_true_eq] at hcond
    obtain ⟨⟨⟨hcomp, hstat⟩, hbal⟩, hdue⟩ := hcond
    obtain ⟨leaks, nid, cnt⟩ := s
    cases hg : findOpenLeak leaks cid .uncollected_receivable
        (fun r => decide (r.invoiceId = some inv.invoiceNumber)) with
    | some ex =>
      have hval : agingReceivableVisit now cid (leaks, nid, cnt) inv =
          (leaks, nid, cnt) := by
        simp only [agingReceivableVisit]
        rw [hg]
      rw [hval]
      exact hInv
    | none =>
      have hval : agingReceivableVisit now cid (leaks, nid, cnt) inv =
          (leaks ++ [leakSave now {
            oid := nid, company := cid, leakType := .uncollected_receivable,
            status := .detected, priority := .critical,
            amount := inv.balance, currency := inv.currency, confidence := 90,
            sourceSystem := inv.sourceSystem,
            sourceReference := { invoiceId := some inv.invoiceNumber,
                                 customerId := inv.customerId,
                                 transactionId := none, contractId := none },
            detectedAt := now,
            aging := jsFloorDiv (now - inv.dueDate) msPerDay,
            recommendedAction := "Immediate escalation to legal/collections team" }],
           nid + 1, cnt + 1) := by
        simp only [agingReceivableVisit]
        rw [hg]
      rw [hval]
      intro lk hlkmem
      rcases List.mem_append.mp hlkmem with h | h
      · exact hInv lk h
      · right
        rw [List.mem_singleton.mp h]
        refine ⟨rfl, rfl, rfl, rfl, rfl, rfl, rfl, ?_, inv, hmem, hcomp, hstat,
          hbal, hdue, rfl, rfl⟩
        show jsFloorDiv (now - now) msPerDay = 0
        rw [sub_self]
        simp [jsFloorDiv]
  intro lk hlk
  exact main lk hlk

/-- Witness for C6 on an invoice 65 days past due: the persisted leak has
priority critical, confidence 90, and aging 0. -/
theorem detectAgingReceivables_spec_witness :
    ∃ lk ∈ ((detectAgingReceivables (65 * msPerDay) 1 agingDB).1).leaks,
      lk.priority = Priority.critical ∧ lk.confidence = 90 ∧ lk.aging = 0 := by
  have h := detectAgingReceivables_spec (65 * msPerDay) 1 agingDB
  refine ⟨_, List.mem_cons_self _ _, ?_⟩
  rcases h _ (List.mem_cons_self _ _) with hin | hP
  · exact absurd hin (List.not_mem_nil _)
  · exact ⟨hP.2.2.2.1, hP.2.2.2.2.1, hP.2.2.2.2.2.2.2.1⟩

/-- C6 counterexample: for an invoice 65 days past due the persisted leak
carries aging 0 (days since detection), while the number of whole days
since the invoice due date is 65; so the persisted aging is not the days
since due date asserted by the claim. -/
theorem agingReceivables_aging_counterexample :
    (((detectAgingReceivables (65 * msPerDay) 1 agingDB).1).leaks.map
        (fun l => (l.priority, l.confidence, l.aging)) =
      [(Priority.critical, (90 : ℚ), (0 : ℤ))]) ∧
    jsFloorDiv (65 * msPerDay - agingInvoice.dueDate) msPerDay = 65 ∧
    (0 : ℤ) ≠ 65 := by
  refine ⟨by decide, by decide, by decide⟩

/-- Refreshing aging and amount of a stored leak preserves the dedup
invariant: the update touches neither key fields nor status. -/
theorem strongInv_updateLeak (leaks : List Leak) (i : Nat) (ag : ℤ) (am : ℚ)
    (h : StrongInv leaks) : StrongInv (updateLeakById leaks i ag am) := by
  intro cid t r
  unfold updateLeakById
  rw [List.countP_map]
  have hpt : ∀ l ∈ leaks, (keyPred cid t r ∘ fun l =>
      if l.oid = i then { l with aging := ag, amount := am } else l) l = true ↔
      keyPred cid t r l = true := by
    intro l _
    show keyPred cid t r
        (if l.oid = i then { l with aging := ag, amount := am } else l) = true ↔ _
    split
    · exact Iff.rfl
    · exact Iff.rfl
  rw [List.countP_congr hpt]
  exact h cid t r

/-- Appending a leak whose dedup key has no open occurrence preserves the
dedup invariant. -/
theorem strongInv_create (leaks : List Leak) (l : Leak) (h : StrongInv leaks)
    (hg : ∀ x ∈ leaks,
      keyPred l.company l.leakType (keyRef l.leakType l.sourceReference) x =
        false) :
    StrongInv (leaks ++ [l]) := by
  intro cid t r
  rw [List.countP_append]
  by_cases hl : keyPred cid t r l = true
  · simp only [keyPred, Bool.and_eq_true, decide_eq_true_eq] at hl
    obtain ⟨⟨⟨hc, ht2⟩, hr⟩, _⟩ := hl
    subst hc
    subst ht2
    subst hr
    have hz : leaks.countP
        (keyPred l.company l.leakType (keyRef l.leakType l.sourceReference)) =
        0 :=
      List.countP_eq_zero.mpr (fun x hx hpx => by rw [hg x hx] at hpx; cases hpx)
    rw [hz]
    have hle : List.countP
        (keyPred l.company l.leakType (keyRef l.leakType l.sourceReference))
        [l] ≤ [l].length := List.countP_le_length _
    simpa using hle
  · have hz2 : List.countP (keyPred cid t r) [l] = 0 := by
      simp [List.countP_cons, hl]
    rw [hz2]
    simpa using h cid t r

/-- The missing-payment loop body preserves the dedup invariant. -/
theorem strongInv_missingPaymentVisit (now : ℤ) (cid : Nat)
    (st : List Leak × Nat × Nat) (inv : Invoice) (h : StrongInv st.1) :
    StrongInv (missingPaymentVisit now cid st inv).1 := by
  obtain ⟨leaks, nid, cnt⟩ := st
  simp only [missingPaymentVisit]
  by_cases hd : jsFloorDiv (now - inv.dueDate) msPerDay > 0
  · rw [if_pos hd]
    cases hg : findOpenLeak leaks cid .missing_payment
        (fun r => decide (r.invoiceId = some inv.invoiceNumber)) with
    | none =>
      refine strongInv_create leaks _ h ?_
      intro x hx
      exact Bool.eq_false_iff.mpr (List.find?_eq_none.mp hg x hx)
    | some ex =>
      exact strongInv_updateLeak leaks ex.oid _ _ h
  · rw [if_neg hd]
    exact h

/-- The under-billing loop body preserves the dedup invariant. -/
theorem strongInv_underBillingVisit (now : ℤ) (cid : Nat)
    (invoices : List Invoice) (st : List Leak × Nat × Nat) (c : Contract)
    (h : StrongInv st.1) :
    StrongInv (underBillingVisit now cid invoices st c).1 := by
  obtain ⟨leaks, nid, cnt⟩ := st
  simp only [underBillingVisit]
  by_cases hc : (calculateExpectedBilling c - contractTotalBilled cid invoices c) /
      calculateExpectedBilling c * 100 > 5
  · rw [if_pos hc]
    cases hg : findOpenLeak leaks cid .under_billing
        (fun r => decide (r.contractId = some c.contractNumber)) with
    | none =>
      refine strongInv_create leaks _ h ?_
      intro x hx
      exact Bool.eq_false_iff.mpr (List.find?_eq_none.mp hg x hx)
    | some ex =>
      exact h
  · rw [if_neg hc]
    exact h

/-- The failed-renewal loop body preserves the dedup invariant. -/
theorem strongInv_failedRenewalVisit (now : ℤ) (cid : Nat)
    (contracts : List Contract) (st : List Leak × Nat × Nat) (c : Contract)
    (h : StrongInv st.1) :
    StrongInv (failedRenewalVisit now cid contracts st c).1 := by
  obtain ⟨leaks, nid, cnt⟩ := st
  simp only [failedRenewalVisit]
  cases hr : contracts.find? (fun c2 =>
      decide (c2.company = cid) &&
      decide (c2.clientCompanyName = c.clientCompanyName) &&
      decide (c.endDate ≤ c2.startDate)) with
  | some _ =>
    exact h
  | none =>
    cases hg : findOpenLeak leaks cid .failed_renewal
        (fun r => decide (r.contractId = some c.contractNumber)) with
    | none =>
      refine strongInv_create leaks _ h ?_
      intro x hx
      exact Bool.eq_false_iff.mpr (List.find?_eq_none.mp hg x hx)
    | some ex =>
      exact h

/-- The aging-receivable loop body preserves the dedup invariant. -/
theorem strongInv_agingReceivableVisit (now : ℤ) (cid : Nat)
    (st : List Leak × Nat × Nat) (inv : Invoice) (h : StrongInv st.1) :
    StrongInv (agingReceivableVisit now cid st inv).1 := by
  obtain ⟨leaks, nid, cnt⟩ := st
  simp only [agingReceivableVisit]
  cases hg : findOpenLeak leaks cid .uncollected_receivable
      (fun r => decide (r.invoiceId = some inv.invoiceNumber)) with
  | none =>
    refine strongInv_create leaks _ h ?_
    intro x hx
    exact Bool.eq_false_iff.mpr (List.find?_eq_none.mp hg x hx)
  | some ex =>
    exact h

/-- Each full detector preserves the dedup invariant. -/
theorem strongInv_detectors (now : ℤ) (cid : Nat) (db : DB)
    (h : StrongInv db.leaks) :
    StrongInv ((detectMissingPayments now cid db).1).leaks ∧
    StrongInv ((detectUnderBilling now cid db).1).leaks ∧
    StrongInv ((detectFailedRenewals now cid db).1).leaks ∧
    StrongInv ((detectAgingReceivables now cid db).1).leaks := by
  refine ⟨?_, ?_, ?_, ?_⟩
  · exact foldl_inv_mem (fun st => StrongInv st.1) (missingPaymentVisit now cid)
      _ (fun s x _ hs => strongInv_missingPaymentVisit now cid s x hs)
      (db.leaks, db.nextLeakId, 0) h
  · exact foldl_inv_mem (fun st => StrongInv st.1)
      (underBillingVisit now cid db.invoices) _
      (fun s x _ hs => strongInv_underBillingVisit now cid db.invoices s x hs)
      (db.leaks, db.nextLeakId, 0) h
  · exact foldl_inv_mem (fun st => StrongInv st.1)
      (failedRenewalVisit now cid db.contracts) _
      (fun s x _ hs => strongInv_failedRenewalVisit now cid db.contracts s x hs)
      (db.leaks, db.nextLeakId, 0) h
  · exact foldl_inv_mem (fun st => StrongInv st.1) (agingReceivableVisit now cid)
      _ (fun s x _ hs => strongInv_agingReceivableVisit now cid s x hs)
      (db.leaks, db.nextLeakId, 0) h

/-- One detectLeaks call preserves the dedup invariant. -/
theorem strongInv_detectLeaks (now : ℤ) (cid : Nat) (db : DB)
    (h : StrongInv db.leaks) : StrongInv ((detectLeaks now cid db).1).leaks :=
  (strongInv_detectors now cid
    ((detectFailedRenewals now cid
      ((detectUnderBilling now cid
        ((detectMissingPayments now cid db).1)).1)).1)
    ((strongInv_detectors now cid
      ((detectUnderBilling now cid
        ((detectMissingPayments now cid db).1)).1)
      ((strongInv_detectors now cid ((detectMissingPayments now cid db).1)
        ((strongInv_detectors now cid db h).1)).2.1)).2.2.1)).2.2.2

/-- A store whose leaks are all terminal satisfies the dedup invariant. -/
theorem strongInv_of_terminal (leaks : List Leak)
    (h : ∀ l ∈ leaks, isTerminal l.status = true) : StrongInv leaks := by
  intro cid t r
  have hz : leaks.countP (keyPred cid t r) = 0 := by
    refine List.countP_eq_zero.mpr (fun x hx hpx => ?_)
    simp only [keyPred, Bool.and_eq_true, Bool.not_eq_true'] at hpx
    rw [h x hx] at hpx
    cases hpx.2
  rw [hz]
  omega

/-- The detector dedup-key invariant implies at most one open leak per full
spec dedup key (tenant, leakType, entire sourceReference). -/
theorem strongInv_to_full (leaks : List Leak) (h : StrongInv leaks) :
    ∀ (cid : Nat) (t : LeakType) (ref : SourceReference),
      leaks.countP (openWithKey cid t ref) ≤ 1 := by
  intro cid t ref
  refine le_trans (List.countP_mono_left ?_) (h cid t (keyRef t ref))
  intro x hx hpx
  simp only [openWithKey, Bool.and_eq_true, decide_eq_true_eq,
    Bool.not_eq_true'] at hpx
  obtain ⟨⟨⟨hc, ht2⟩, hr⟩, hterm⟩ := hpx
  simp only [keyPred, Bool.and_eq_true, decide_eq_true_eq, Bool.not_eq_true']
  exact ⟨⟨⟨hc, ht2⟩, by rw [hr]⟩, hterm⟩

/-- C1: starting from a state with no open leaks, after any sequence of
detectLeaks calls at most one leak with status outside
recovered / written_off exists per dedup key
(tenant, leakType, sourceReference): each detector queries for an existing
open leak on its key before creating, and (second part) terminal leaks
never satisfy the dedup guard, so they do not block creation of a new leak
for the same key. -/
theorem detectLeaks_dedup_invariant :
    (∀ (calls : List (ℤ × Nat)) (db : DB),
      (∀ l ∈ db.leaks, isTerminal l.status = true) →
      ∀ (cid : Nat) (t : LeakType) (ref : SourceReference),
        ((runDetectLeaks calls db).leaks.countP (openWithKey cid t ref)) ≤ 1) ∧
    (∀ (leaks : List Leak) (cid : Nat) (t : LeakType)
        (refMatch : SourceReference → Bool),
      (∀ l ∈ leaks, isTerminal l.status = true) →
      findOpenLeak leaks cid t refMatch = none) := by
  constructor
  · intro calls db h0
    have hstrong : StrongInv (runDetectLeaks calls db).leaks := by
      unfold runDetectLeaks
      exact foldl_inv_mem (fun d => StrongInv d.leaks)
        (fun d c => (detectLeaks c.1 c.2 d).1) calls
        (fun d c _ hd => strongInv_detectLeaks c.1 c.2 d hd) db
        (strongInv_of_terminal db.leaks h0)
    exact strongInv_to_full _ hstrong
  · intro leaks cid t refMatch h
    rw [findOpenLeak, List.find?_eq_none]
    intro x hx
    simp [h x hx]

/-- Witness for C1: two detectLeaks runs over a store holding one overdue
invoice and a terminal leak on its key; the open-leak count for the key
stays at most one, and the terminal leak does not satisfy the guard. -/
theorem detectLeaks_dedup_invariant_witness :
    ((runDetectLeaks [(65 * msPerDay, 1), (65 * msPerDay, 1)] c1DB).leaks.countP
      (openWithKey 1 .missing_payment
        { invoiceId := some "INV-4", customerId := some "CU1",
          transactionId := none, contractId := none })) ≤ 1 ∧
    findOpenLeak [terminalLeak] 1 .missing_payment
      (fun r => decide (r.invoiceId = some "INV-4")) = none :=
  ⟨detectLeaks_dedup_invariant.1 [(65 * msPerDay, 1), (65 * msPerDay, 1)] c1DB
    (by decide) 1 .missing_payment
    { invoiceId := some "INV-4", customerId := some "CU1",
      transactionId := none, contractId := none },
   detectLeaks_dedup_invariant.2 [terminalLeak] 1 .missing_payment
    (fun r => decide (r.invoiceId = some "INV-4")) (by decide)⟩
